import Mathlib

/-!
Verification development for the depfence dependency-confusion scanner.

The definitions below are a shallow embedding of the TypeScript sources:
`src/parser/lockfile-parser.ts`, `src/parser/registry-config-parser.ts`,
`src/analyzer/rules.ts`, `src/analyzer/registry-checker.ts` and
`src/analyzer/analyzer.ts`.  JavaScript `Map` values are modelled as
insertion-ordered association lists (`mapSet` keeps the position of an
existing key, as `Map.prototype.set` does), string regular expressions are
compiled by hand into deterministic character-list matchers that reproduce
the backtracking behaviour on the pattern in question, and JavaScript
truthiness on optional strings (`undefined` and `""` are both falsy) is
modelled by `jsTruthyStr`.
-/

namespace Depfence

/-! ### JavaScript string primitives -/

/-- ASCII fragment of the JavaScript whitespace class used by `trim` and `\s`. -/
def isJsWs (c : Char) : Bool :=
  c = ' ' || c = '\t' || c = '\n' || c = '\r' || c = Char.ofNat 11 || c = Char.ofNat 12

/-- Models `String.prototype.trim`. -/
def jsTrim (s : String) : String :=
  String.mk (((s.toList.dropWhile isJsWs).reverse.dropWhile isJsWs).reverse)

/-- Models `String.prototype.startsWith`. -/
def strStarts (s p : String) : Bool :=
  p.toList.isPrefixOf s.toList

/-- Split at a separator character, keeping empty parts (the behaviour of
`content.split("\n")`). -/
def splitOnChar (c : Char) : List Char → List (List Char)
  | [] => [[]]
  | x :: r =>
    if x = c then [] :: splitOnChar c r
    else
      match splitOnChar c r with
      | h :: t => (x :: h) :: t
      | [] => [[x]]

/-- Models `content.split("\n")`. -/
def jsSplitNewline (s : String) : List String :=
  (splitOnChar '\n' s.toList).map String.mk

/-- Substring occurrence test on character lists. -/
def subOccurs (pat : List Char) : List Char → Bool
  | [] => pat.isEmpty
  | l@(_ :: r) => pat.isPrefixOf l || subOccurs pat r

/-- Models `String.prototype.includes`. -/
def strContains (s pat : String) : Bool :=
  subOccurs pat.toList s.toList

/-- Leftmost-match regex search scaffold: at each start position, if the
literal `pat` is present, attempt the tail matcher `k` on the remainder, and
fall through to the next start position when it fails. -/
def scanFor (pat : List Char) (k : List Char → Option β) : List Char → Option β
  | [] => if pat.isEmpty then k [] else none
  | l@(_ :: r) =>
    if pat.isPrefixOf l then
      match k (l.drop pat.length) with
      | some b => some b
      | none => scanFor pat k r
    else scanFor pat k r

/-- Drop a single leading occurrence of `c` (models an optional literal `c?`
at the start of a regex when no alternative reading can succeed). -/
def dropIfHead (c : Char) (l : List Char) : List Char :=
  match l with
  | x :: r => if x = c then r else x :: r
  | [] => []

/-- The single-quote character, kept out of string literals. -/
def squoteChar : Char := Char.ofNat 39

/-- The single-quote character as a string. -/
def squoteStr : String := String.mk [squoteChar]

/-- JavaScript truthiness of a possibly-absent string: `undefined` and the
empty string are falsy. -/
def jsTruthyStr (o : Option String) : Bool :=
  match o with
  | none => false
  | some s => !(s = "")

/-- Models `s.split(sep)` / `String.splitOn`, and `line.charAt(0)` being a
non-whitespace character (the `/^\S/` test). -/
def lineHeadNonWs (line : String) : Bool :=
  match line.toList with
  | c :: _ => !isJsWs c
  | [] => false

/-- Concatenation of the lists produced for each element, in order (the shape
of a loop that pushes the findings of each iteration). -/
def listFlatMap (f : α → List β) : List α → List β
  | [] => []
  | a :: r => f a ++ listFlatMap f r

/-! ### JavaScript `Map` model: insertion-ordered association lists -/

/-- Models `Map.prototype.get` (first matching key; keys are unique when the
list is built with `mapSet`). -/
def mapGet (m : List (String × α)) (k : String) : Option α :=
  match m with
  | [] => none
  | (k1, v) :: r => if k1 = k then some v else mapGet r k

/-- Models `Map.prototype.has`. -/
def mapHas (m : List (String × α)) (k : String) : Bool :=
  (mapGet m k).isSome

/-- Models `Map.prototype.set`: replace in place when the key exists,
otherwise append at the end (insertion order preserved). -/
def mapSet (m : List (String × α)) (k : String) (v : α) : List (String × α) :=
  match m with
  | [] => [(k, v)]
  | (k1, v1) :: r => if k1 = k then (k1, v) :: r else (k1, v1) :: mapSet r k v

/-- A set-if-absent update: the shape of `if (!m.has(k)) m.set(k, v)`. -/
def guardedSet (m : List (String × α)) (k : String) (v : α) : List (String × α) :=
  if mapHas m k then m else mapSet m k v

/-- The value attached to the last occurrence of a key in an entry sequence. -/
def lastLookup (l : List (String × α)) (k : String) : Option α :=
  match l with
  | [] => none
  | (k1, v) :: r =>
    match lastLookup r k with
    | some w => some w
    | none => if k1 = k then some v else none

/-- The value attached to the first occurrence of a key in an entry sequence. -/
def firstLookup (l : List (String × α)) (k : String) : Option α :=
  match l with
  | [] => none
  | (k1, v) :: r => if k1 = k then some v else firstLookup r k

/-! ### Data model (`src/types.ts`) -/

/-- Severity enumeration, critical the most severe. -/
inductive Severity
  | critical
  | high
  | medium
  | low
  | info
  deriving DecidableEq, Repr

/-- The `SEVERITY_ORDER` table of `analyzer.ts`. -/
def ordSeverity : Severity → Nat
  | Severity.critical => 0
  | Severity.high => 1
  | Severity.medium => 2
  | Severity.low => 3
  | Severity.info => 4

inductive PackageManager
  | npm
  | yarn
  | pnpm
  deriving DecidableEq, Repr

structure LockfileEntry where
  name : String
  version : String
  resolved : Option String
  integrity : Option String
  hasInstallScripts : Option Bool
  deriving DecidableEq, Repr

structure LockfileData where
  type : PackageManager
  packages : List (String × LockfileEntry)
  deriving DecidableEq, Repr

structure PackageDependency where
  name : String
  version : String
  scope : Option String
  isScoped : Bool
  isDev : Bool
  resolvedUrl : Option String
  integrity : Option String
  hasInstallScripts : Bool
  deriving DecidableEq, Repr

structure RegistryConfig where
  defaultRegistry : Option String
  scopeRegistries : List (String × String)
  hasConfig : Bool
  deriving DecidableEq, Repr

structure PackageJsonData where
  name : Option String
  version : Option String
  isPrivate : Bool
  dependencies : List (String × String)
  devDependencies : List (String × String)
  hasPreinstall : Bool
  hasPostinstall : Bool
  hasInstall : Bool
  deriving DecidableEq, Repr

structure ProjectContext where
  rootDir : String
  packageJson : PackageJsonData
  dependencies : List PackageDependency
  registryConfig : RegistryConfig
  lockfile : Option LockfileData
  deriving DecidableEq, Repr

structure Finding where
  ruleId : String
  severity : Severity
  title : String
  description : String
  packageName : Option String
  recommendation : String
  evidence : Option String
  deriving DecidableEq, Repr

structure ScanSummary where
  total : Nat
  critical : Nat
  high : Nat
  medium : Nat
  low : Nat
  info : Nat
  deriving DecidableEq, Repr

structure ScanContext where
  packagesScanned : Nat
  scopedPackages : Nat
  registriesConfigured : Nat
  lockfileDetected : Bool
  deriving DecidableEq, Repr

structure ScanResult where
  findings : List Finding
  summary : ScanSummary
  context : ScanContext
  deriving DecidableEq, Repr

/-! ### Lockfile parser (`src/parser/lockfile-parser.ts`) -/

/-- One value of the JSON objects `raw.packages` / `raw.dependencies` of an
npm lockfile, already shaped: a field is `none` when it is absent or not of
the checked type (`typeof v !== "string"`, resp. `v !== true`). -/
structure NpmLockPkg where
  version : Option String
  resolved : Option String
  integrity : Option String
  hasInstallScripts : Option Bool
  deriving DecidableEq, Repr

/-- The parsed JSON object of a `package-lock.json` file: the entry lists of
its `packages` and `dependencies` objects, in object-key order. -/
structure NpmLockRaw where
  packages : List (String × NpmLockPkg)
  dependencies : List (String × NpmLockPkg)
  deriving DecidableEq, Repr

/-- Models `key.replace(/^node_modules\/ni/, "")` with the literal
`node_modules/`: strips one leading occurrence. -/
def stripNodeModules (s : String) : String :=
  if strStarts s ("node_modules/") then String.mk (s.toList.drop 13) else s

/-- Builds one `LockfileEntry` from an npm lockfile package value. -/
def npmEntry (name : String) (v : NpmLockPkg) : LockfileEntry :=
  { name := name
    version := v.version.getD ""
    resolved := v.resolved
    integrity := v.integrity
    hasInstallScripts := match v.hasInstallScripts with
      | some true => some true
      | _ => none }

/-- The `(name, entry)` pairs visited by the `packages` loop of
`parseNpmLockfile` (the root `""` key is skipped, path prefixes stripped). -/
def npmPkgEntries (raw : NpmLockRaw) : List (String × LockfileEntry) :=
  raw.packages.filterMap (fun p =>
    if p.1 = "" then none
    else
      let name := stripNodeModules p.1
      some (name, npmEntry name p.2))

/-- The `(name, entry)` pairs visited by the legacy `dependencies` fallback
loop of `parseNpmLockfile`. -/
def npmDepEntries (raw : NpmLockRaw) : List (String × LockfileEntry) :=
  raw.dependencies.map (fun p => (p.1, npmEntry p.1 p.2))

/-- `parseNpmLockfile`: fill the table from `packages`; when that leaves the
table empty, fall back to the legacy `dependencies` tree. -/
def parseNpmLockfile (raw : NpmLockRaw) : LockfileData :=
  let m := (npmPkgEntries raw).foldl (fun m p => mapSet m p.1 p.2) []
  if m.length = 0 then
    { type := PackageManager.npm
      packages := (npmDepEntries raw).foldl (fun m p => mapSet m p.1 p.2) [] }
  else
    { type := PackageManager.npm, packages := m }

/-- Models `content.split(/\n(?=\S)/)`: a new block begins at every line whose
first character is non-whitespace; the separating newline is consumed. -/
def yarnBlocks (content : String) : List String :=
  match jsSplitNewline content with
  | [] => []
  | first :: rest =>
    let step := fun (acc : List (List String)) (line : String) =>
      if lineHeadNonWs line then [line] :: acc
      else
        match acc with
        | b :: bs => (line :: b) :: bs
        | [] => [[line]]
    ((rest.foldl step [[first]]).map (fun b => String.intercalate ("\n") b.reverse)).reverse

/-- Compiles `/^"?(@?[^@"]+)@/` applied to a block header: optional quote,
then a name (optionally starting with `@`) made of non-`@`, non-quote
characters, terminated by a literal `@`. -/
def yarnHeaderName (header : String) : Option String :=
  let l := dropIfHead '"' header.toList
  match l with
  | [] => none
  | c :: r =>
    if c = '@' then
      let run := r.takeWhile (fun d => !(d = '@' || d = '"'))
      if run.isEmpty then none
      else
        match r.drop run.length with
        | d :: _ => if d = '@' then some (String.mk ('@' :: run)) else none
        | [] => none
    else
      let run := (c :: r).takeWhile (fun d => !(d = '@' || d = '"'))
      if run.isEmpty then none
      else
        match (c :: r).drop run.length with
        | d :: _ => if d = '@' then some (String.mk run) else none
        | [] => none

/-- Compiles `/^version\s+"([^"]+)"/` on a trimmed line. -/
def versionMatch (t : String) : Option String :=
  let l := t.toList
  if ("version".toList).isPrefixOf l then
    let r := l.drop 7
    let ws := r.takeWhile isJsWs
    if ws.isEmpty then none
    else
      match r.drop ws.length with
      | c :: r2 =>
        if c = '"' then
          let run := r2.takeWhile (fun d => !(d = '"'))
          if run.isEmpty then none
          else
            match r2.drop run.length with
            | d :: _ => if d = '"' then some (String.mk run) else none
            | [] => none
        else none
      | [] => none
  else none

/-- Compiles `/^resolved\s+"([^"]+)"/` on a trimmed line. -/
def resolvedMatch (t : String) : Option String :=
  let l := t.toList
  if ("resolved".toList).isPrefixOf l then
    let r := l.drop 8
    let ws := r.takeWhile isJsWs
    if ws.isEmpty then none
    else
      match r.drop ws.length with
      | c :: r2 =>
        if c = '"' then
          let run := r2.takeWhile (fun d => !(d = '"'))
          if run.isEmpty then none
          else
            match r2.drop run.length with
            | d :: _ => if d = '"' then some (String.mk run) else none
            | [] => none
        else none
      | [] => none
  else none

/-- Compiles `/^integrity\s+(\S+)/` on a trimmed line. -/
def integrityMatch (t : String) : Option String :=
  let l := t.toList
  if ("integrity".toList).isPrefixOf l then
    let r := l.drop 9
    let ws := r.takeWhile isJsWs
    if ws.isEmpty then none
    else
      let run := (r.drop ws.length).takeWhile (fun d => !isJsWs d)
      if run.isEmpty then none else some (String.mk run)
  else none

/-- Parses one yarn.lock block into a lockfile entry, `none` when the header
is a comment, empty, or has no `name@range` specifier. -/
def parseYarnBlock (block : String) : Option LockfileEntry :=
  let lines := jsSplitNewline block
  let header := jsTrim (lines.headD "")
  if header = "" || strStarts header ("#") then none
  else
    match yarnHeaderName header with
    | none => none
    | some name =>
      let st := (lines.drop 1).foldl
        (fun (st : String × Option String × Option String) line =>
          let t := jsTrim line
          let v := match versionMatch t with
            | some v => v
            | none => st.1
          let rz := match resolvedMatch t with
            | some r => some r
            | none => st.2.1
          let ig := match integrityMatch t with
            | some i => some i
            | none => st.2.2
          (v, rz, ig))
        ("", none, none)
      some { name := name, version := st.1, resolved := st.2.1,
             integrity := st.2.2, hasInstallScripts := none }

/-- The entries produced by the successive blocks of a yarn.lock file. -/
def yarnEntries (content : String) : List (String × LockfileEntry) :=
  ((yarnBlocks content).filterMap parseYarnBlock).map (fun e => (e.name, e))

/-- `parseYarnLockfile`: one `packages.set(name, …)` per parsed block. -/
def parseYarnLockfile (content : String) : LockfileData :=
  { type := PackageManager.yarn
    packages := (yarnEntries content).foldl (fun m p => mapSet m p.1 p.2) [] }

/-- The version part `([\d][^:']*)'?:` shared by the three pnpm key shapes. -/
def pnpmVersionTail (l : List Char) : Option String :=
  match l with
  | d :: r =>
    if d.isDigit then
      let run := r.takeWhile (fun c => !(c = ':' || c = squoteChar))
      match r.drop run.length with
      | c :: r2 =>
        if c = ':' then some (String.mk (d :: run))
        else
          if c = squoteChar then
            match r2 with
            | c2 :: _ => if c2 = ':' then some (String.mk (d :: run)) else none
            | [] => none
          else none
      | [] => none
    else none
  | [] => none

/-- Compiles `/^'?\/?(@[^\/]+\/[^\/]+)\/([\d][^:']*)'?:/` (pnpm v5 scoped). -/
def pnpmV5Scoped (t : List Char) : Option (String × String) :=
  let l := dropIfHead squoteChar t
  let l := dropIfHead '/' l
  match l with
  | c :: r =>
    if c = '@' then
      let run1 := r.takeWhile (fun d => !(d = '/'))
      if run1.isEmpty then none
      else
        match r.drop run1.length with
        | s1 :: r2 =>
          if s1 = '/' then
            let run2 := r2.takeWhile (fun d => !(d = '/'))
            if run2.isEmpty then none
            else
              match r2.drop run2.length with
              | s2 :: r3 =>
                if s2 = '/' then
                  match pnpmVersionTail r3 with
                  | some v => some (String.mk ('@' :: (run1 ++ '/' :: run2)), v)
                  | none => none
                else none
              | [] => none
          else none
        | [] => none
    else none
  | [] => none

/-- Compiles `/^'?\/([^@\/][^\/]*)\/([\d][^:']*)'?:/` (pnpm v5 unscoped). -/
def pnpmV5Unscoped (t : List Char) : Option (String × String) :=
  let l := dropIfHead squoteChar t
  match l with
  | s0 :: r0 =>
    if s0 = '/' then
      match r0 with
      | c :: r =>
        if !(c = '@' || c = '/') then
          let run := r.takeWhile (fun d => !(d = '/'))
          match r.drop run.length with
          | s1 :: r2 =>
            if s1 = '/' then
              match pnpmVersionTail r2 with
              | some v => some (String.mk (c :: run), v)
              | none => none
            else none
          | [] => none
        else none
      | [] => none
    else none
  | [] => none

/-- Compiles `/^'?\/?(@[^@]+|[^@\/'\s][^@]*?)@([\d][^:']*)'?:/` (pnpm v6+). -/
def pnpmV6 (t : List Char) : Option (String × String) :=
  let l := dropIfHead squoteChar t
  let l := dropIfHead '/' l
  match l with
  | c :: r =>
    if c = '@' then
      let run := r.takeWhile (fun d => !(d = '@'))
      if run.isEmpty then none
      else
        match r.drop run.length with
        | a :: r2 =>
          if a = '@' then
            match pnpmVersionTail r2 with
            | some v => some (String.mk ('@' :: run), v)
            | none => none
          else none
        | [] => none
    else
      if c = '/' || c = squoteChar || isJsWs c then none
      else
        let run := r.takeWhile (fun d => !(d = '@'))
        match r.drop run.length with
        | a :: r2 =>
          if a = '@' then
            match pnpmVersionTail r2 with
            | some v => some (String.mk (c :: run), v)
            | none => none
          else none
        | [] => none
  | [] => none

/-- The three pnpm key shapes, tried in the source's order
(`v5Scoped ?? v5Unscoped ?? v6Match`). -/
def pnpmKeyMatch (trimmed : String) : Option (String × String) :=
  match pnpmV5Scoped trimmed.toList with
  | some nv => some nv
  | none =>
    match pnpmV5Unscoped trimmed.toList with
    | some nv => some nv
    | none => pnpmV6 trimmed.toList

/-- Tail matcher of `/integrity:\s*['"]?(sha[^}'"\s]+)['"]?/` after the
literal `integrity:`. -/
def pnpmIntegrityTail (l : List Char) : Option String :=
  let ws := l.takeWhile isJsWs
  let u := l.drop ws.length
  let u :=
    match u with
    | c :: r => if c = '"' || c = squoteChar then r else c :: r
    | [] => []
  if ("sha".toList).isPrefixOf u then
    let run := (u.drop 3).takeWhile
      (fun c => !(c = Char.ofNat 125 || c = squoteChar || c = '"' || isJsWs c))
    if run.isEmpty then none else some (String.mk ("sha".toList ++ run))
  else none

/-- The unanchored `trimmed.match(/integrity:\s*['"]?(sha[^}'"\s]+)['"]?/)`. -/
def pnpmIntegritySearch (t : String) : Option String :=
  scanFor ("integrity:".toList) pnpmIntegrityTail t.toList

/-- Parser state of `parsePnpmLockfile`. -/
structure PnpmSt where
  inSection : Bool
  curName : Option String
  curVersion : Option String
  curIntegrity : Option String
  packages : List (String × LockfileEntry)
  deriving Repr

/-- Flush of the pending entry, guarded by
`currentName && currentVersion && !packages.has(currentName)`. -/
def pnpmFlush (st : PnpmSt) : List (String × LockfileEntry) :=
  if jsTruthyStr st.curName && jsTruthyStr st.curVersion then
    guardedSet st.packages (st.curName.getD "")
      { name := st.curName.getD "", version := st.curVersion.getD "",
        resolved := none, integrity := st.curIntegrity, hasInstallScripts := none }
  else st.packages

/-- One line of the `parsePnpmLockfile` loop. -/
def pnpmStep (st : PnpmSt) (line : String) : PnpmSt :=
  let trimmed := jsTrim line
  if strStarts trimmed ("packages:") then
    { st with inSection := true }
  else
    if st.inSection && lineHeadNonWs line && !(trimmed = "")
        && !(strStarts trimmed ("/")) && !(strStarts trimmed ("@"))
        && !(strStarts trimmed squoteStr) then
      { inSection := false, curName := none, curVersion := none,
        curIntegrity := none, packages := pnpmFlush st }
    else
      if !st.inSection then st
      else
        match pnpmKeyMatch trimmed with
        | some nv =>
          { st with curName := some nv.1, curVersion := some nv.2,
                    curIntegrity := none, packages := pnpmFlush st }
        | none =>
          if jsTruthyStr st.curName then
            match pnpmIntegritySearch trimmed with
            | some ig => { st with curIntegrity := some ig }
            | none => st
          else st

/-- Initial state of the pnpm parser. -/
def pnpmInit : PnpmSt :=
  { inSection := false, curName := none, curVersion := none,
    curIntegrity := none, packages := [] }

/-- `parsePnpmLockfile`: run the line state machine, then flush the final
pending entry. -/
def parsePnpmLockfile (content : String) : LockfileData :=
  let finalSt := (jsSplitNewline content).foldl pnpmStep pnpmInit
  { type := PackageManager.pnpm, packages := pnpmFlush finalSt }

/-! ### Registry config parser (`src/parser/registry-config-parser.ts`) -/

/-- Shared tail of the two `.npmrc` registry line shapes:
`\s*=\s*(.+)` after a literal, with the captured value trimmed. The
surrounding line is already trimmed, so a non-empty remainder after `=`
cannot be all whitespace. -/
def npmrcRegistryValue (l : List Char) (lit : List Char) : Option String :=
  if lit.isPrefixOf l then
    let r := l.drop lit.length
    let ws := r.takeWhile isJsWs
    match r.drop ws.length with
    | c :: rest =>
      if c = '=' then
        if rest.isEmpty then none else some (jsTrim (String.mk rest))
      else none
    | [] => none
  else none

/-- Compiles `/^(@[^:]+):registry\s*=\s*(.+)/` on a trimmed line. -/
def npmrcScopeLine (l : List Char) : Option (String × String) :=
  match l with
  | c :: r =>
    if c = '@' then
      let run := r.takeWhile (fun d => !(d = ':'))
      if run.isEmpty then none
      else
        match r.drop run.length with
        | s1 :: r2 =>
          if s1 = ':' then
            match npmrcRegistryValue r2 ("registry".toList) with
            | some v => some (String.mk ('@' :: run), v)
            | none => none
          else none
        | [] => none
    else none
  | [] => none

/-- One line of the `parseNpmrcContent` loop; the state is the pair
(default registry, scope table). -/
def npmrcStep (st : Option String × List (String × String)) (line : String) :
    Option String × List (String × String) :=
  let trimmed := jsTrim line
  if trimmed = "" || strStarts trimmed ("#") || strStarts trimmed (";") then st
  else
    match npmrcRegistryValue trimmed.toList ("registry".toList) with
    | some v => (some v, st.2)
    | none =>
      match npmrcScopeLine trimmed.toList with
      | some sv => (st.1, mapSet st.2 sv.1 sv.2)
      | none => st

/-- `parseNpmrcContent`. -/
def parseNpmrcContent (content : String) : RegistryConfig :=
  let st := (jsSplitNewline content).foldl npmrcStep (none, [])
  { defaultRegistry := st.1, scopeRegistries := st.2, hasConfig := true }

/-- Attempt of `\s*"?([^"\n]+)"?` at one whitespace-backtracking position. -/
def nrsTryAt (u : List Char) : Option String :=
  match u with
  | c :: r =>
    if c = '"' then
      let run := r.takeWhile (fun d => !(d = '"' || d = '\n'))
      if run.isEmpty then none else some (String.mk run)
    else
      let run := (c :: r).takeWhile (fun d => !(d = '"' || d = '\n'))
      if run.isEmpty then none else some (String.mk run)
  | [] => none

/-- Greedy-with-backtracking `\s*` prefix: try the longest whitespace run
first, then shorter ones. -/
def nrsDescend (t : List Char) : Nat → Option String
  | 0 => nrsTryAt t
  | k + 1 =>
    match nrsTryAt (t.drop (k + 1)) with
    | some v => some v
    | none => nrsDescend t k

/-- Tail matcher of `/npmRegistryServer:\s*"?([^"\n]+)"?/` after the literal,
with the captured value trimmed. -/
def nrsMatch (t : List Char) : Option String :=
  (nrsDescend t (t.takeWhile isJsWs).length).map (fun v => jsTrim v)

/-- The unanchored search for the default `npmRegistryServer:` value over the
whole `.yarnrc.yml` content. -/
def yarnrcDefaultRegistry (content : String) : Option String :=
  scanFor ("npmRegistryServer:".toList) nrsMatch content.toList

/-- A line matching `/^npmScopes:\s*$/m`. -/
def isNpmScopesLine (line : String) : Bool :=
  strStarts line ("npmScopes:") && (line.toList.drop 10).all isJsWs

/-- The lines following the first `npmScopes:` line. The `\s*$` of the
anchor may additionally swallow blank lines, but blank lines are no-ops for
the scope loop, so starting at the next line is equivalent. -/
def afterNpmScopes : List String → Option (List String)
  | [] => none
  | line :: rest => if isNpmScopesLine line then some rest else afterNpmScopes rest

/-- Compiles the scope header `/^\s{2}["']?(@[^"'\s:]+)["']?\s*:/`. -/
def yarnrcScopeHeader (line : String) : Option String :=
  match line.toList with
  | c0 :: c1 :: r =>
    if isJsWs c0 && isJsWs c1 then
      let r1 :=
        match r with
        | c :: rr => if c = '"' || c = squoteChar then rr else c :: rr
        | [] => []
      match r1 with
      | a :: rr =>
        if a = '@' then
          let run := rr.takeWhile
            (fun d => !(d = '"' || d = squoteChar || d = ':' || isJsWs d))
          if run.isEmpty then none
          else
            let rest :=
              match rr.drop run.length with
              | c :: r2 => if c = '"' || c = squoteChar then r2 else c :: r2
              | [] => []
            match rest.dropWhile isJsWs with
            | c :: _ => if c = ':' then some (String.mk ('@' :: run)) else none
            | [] => none
        else none
      | [] => none
    else none
  | _ => none

/-- Compiles `/^\s{4,}npmRegistryServer:\s*"?([^"\n]+)"?/`. -/
def yarnrcScopeReg (line : String) : Option String :=
  let l := line.toList
  let ws := l.takeWhile isJsWs
  if 4 ≤ ws.length && ("npmRegistryServer:".toList).isPrefixOf (l.drop ws.length) then
    nrsMatch ((l.drop ws.length).drop 18)
  else none

/-- The `npmScopes` loop exit: a non-indented, non-empty line. -/
def yarnrcExit (line : String) : Bool :=
  lineHeadNonWs line && !(jsTrim line = "")

/-- The line loop over the `npmScopes:` section of `parseYarnrcContent`. -/
def yarnrcScopesLoop : List String → Option String → List (String × String) →
    List (String × String)
  | [], _, acc => acc
  | line :: rest, cur, acc =>
    if yarnrcExit line then acc
    else
      match yarnrcScopeHeader line with
      | some sc => yarnrcScopesLoop rest (some sc) acc
      | none =>
        match cur with
        | some sc =>
          match yarnrcScopeReg line with
          | some v => yarnrcScopesLoop rest cur (mapSet acc sc v)
          | none => yarnrcScopesLoop rest cur acc
        | none => yarnrcScopesLoop rest cur acc

/-- `parseYarnrcContent`. -/
def parseYarnrcContent (content : String) : RegistryConfig :=
  let scopeRegistries :=
    match afterNpmScopes (jsSplitNewline content) with
    | some rest => yarnrcScopesLoop rest none []
    | none => []
  { defaultRegistry := yarnrcDefaultRegistry content
    scopeRegistries := scopeRegistries
    hasConfig := true }

/-- The config returned by `parseNpmrc`/`parseYarnrc` when the file is
absent. -/
def emptyRegistryConfig : RegistryConfig :=
  { defaultRegistry := none, scopeRegistries := [], hasConfig := false }

/-- `parseNpmrc`: read the file when it exists (the argument is its content,
`none` when `.npmrc` does not exist). -/
def parseNpmrc (npmrc : Option String) : RegistryConfig :=
  match npmrc with
  | some c => parseNpmrcContent c
  | none => emptyRegistryConfig

/-- `parseYarnrc`: read the file when it exists (the argument is its content,
`none` when `.yarnrc.yml` does not exist). -/
def parseYarnrc (yarnrc : Option String) : RegistryConfig :=
  match yarnrc with
  | some c => parseYarnrcContent c
  | none => emptyRegistryConfig

/-- `parseRegistryConfig`: parse both files, then merge with `.npmrc`
taking precedence: yarnrc scopes are added first and npmrc scopes overlaid;
the default registry is npmrc's when defined (`??`), else yarnrc's;
`hasConfig` is the disjunction. -/
def parseRegistryConfig (npmrc yarnrc : Option String) : RegistryConfig :=
  let a := parseNpmrc npmrc
  let b := parseYarnrc yarnrc
  let merged := a.scopeRegistries.foldl (fun m p => mapSet m p.1 p.2)
    (b.scopeRegistries.foldl (fun m p => mapSet m p.1 p.2) [])
  { defaultRegistry := match a.defaultRegistry with
      | some d => some d
      | none => b.defaultRegistry
    scopeRegistries := merged
    hasConfig := a.hasConfig || b.hasConfig }

/-! ### Detection rules (`src/analyzer/rules.ts`) -/

/-- `isPublicRegistry`: an absent (or, by JS truthiness, empty) URL defaults
to public. -/
def isPublicRegistry (url : Option String) : Bool :=
  match url with
  | none => true
  | some u =>
    if u = "" then true
    else strContains u ("registry.npmjs.org") || strContains u ("registry.yarnpkg.com")

/-- Prefix test of `/^\d+\.\d+\.\d+/`. -/
def majorMinorPatch (l : List Char) : Bool :=
  let d1 := l.takeWhile Char.isDigit
  if d1.isEmpty then false
  else
    match l.drop d1.length with
    | c :: r =>
      if c = '.' then
        let d2 := r.takeWhile Char.isDigit
        if d2.isEmpty then false
        else
          match r.drop d2.length with
          | c2 :: r2 => if c2 = '.' then !(r2.takeWhile Char.isDigit).isEmpty else false
          | [] => false
      else false
    | [] => false

/-- `isVersionPinned`. -/
def isVersionPinned (version : String) : Bool :=
  majorMinorPatch version.toList
    && !(strStarts version ("^")) && !(strStarts version ("~"))
    && !(strContains version (">=")) && !(strContains version ("<="))
    && !(strContains version (">")) && !(strContains version ("<"))
    && !(version = "*") && !(strContains version ("||"))

/-- `getScopedDependencies`. -/
def getScopedDependencies (context : ProjectContext) : List PackageDependency :=
  context.dependencies.filter (fun dep => dep.isScoped)

/-- The truthy test `defaultRegistry && !isPublicRegistry(defaultRegistry)`
used by DC-002 and DC-010. -/
def defaultIsPrivate (cfg : RegistryConfig) : Bool :=
  jsTruthyStr cfg.defaultRegistry && !isPublicRegistry cfg.defaultRegistry

/-- Models `version.replace(/^[\^~]/, "")`. -/
def stripCaretTilde (s : String) : String :=
  match s.toList with
  | c :: r => if c = '^' || c = '~' then String.mk r else s
  | [] => s

/-- Models `new URL(url).hostname` for the `scheme://[user@]host[:port]/…`
URLs that appear as lockfile resolved URLs; strings without `://` model a
throwing URL constructor, giving `none` as `extractRegistryHost` does. -/
def extractRegistryHost (url : String) : Option String :=
  match
    (scanFor ("://".toList) (fun rest => some rest) url.toList :
      Option (List Char))
  with
  | none => none
  | some rest =>
    let auth := rest.takeWhile
      (fun c => !(c = '/' || c = Char.ofNat 63 || c = Char.ofNat 35))
    let host0 := (auth.reverse.takeWhile (fun c => !(c = '@'))).reverse
    let host := host0.takeWhile (fun c => !(c = ':'))
    some (String.mk (host.map Char.toLower))

/-- A detection rule: identifier, base severity, title and evaluation
function. -/
structure Rule where
  id : String
  severity : Severity
  title : String
  run : ProjectContext → List Finding

/-- DC-001: no registry configuration found and scoped dependencies are
present. -/
def noRegistryConfig : Rule :=
  { id := "DC-001", severity := Severity.high
    title := "No registry configuration found"
    run := fun context =>
      let scopedDeps := getScopedDependencies context
      if !context.registryConfig.hasConfig && decide (0 < scopedDeps.length) then
        [{ ruleId := "DC-001", severity := Severity.high
           title := "No registry configuration found"
           description := "No .npmrc or .yarnrc.yml found, but project uses "
             ++ toString scopedDeps.length
             ++ " scoped package(s). All packages resolve from the public npm registry by default."
           packageName := none
           recommendation := "Create an .npmrc file with scope-specific registry mappings for your private scopes."
           evidence := some ("Scoped packages: "
             ++ String.intercalate (", ") (scopedDeps.map (fun d => d.name))) }]
      else [] }

/-- The finding DC-002 pushes for one dependency. -/
def dc002Finding (dep : PackageDependency) (scope : String) : Finding :=
  { ruleId := "DC-002", severity := Severity.critical
    title := "Scoped package without registry mapping"
    description := "Package \"" ++ dep.name ++ "\" uses scope \"" ++ scope
      ++ "\" but no registry mapping exists for this scope. It will be fetched from the public npm registry."
    packageName := some dep.name
    recommendation := "Add " ++ squoteStr ++ scope
      ++ ":registry=https://your-private-registry.example.com/" ++ squoteStr
      ++ " to .npmrc"
    evidence := some ("Scope: " ++ scope ++ ", Version: " ++ dep.version) }

/-- DC-002: scoped package without a scope-specific registry mapping. -/
def scopeWithoutRegistry : Rule :=
  { id := "DC-002", severity := Severity.critical
    title := "Scoped package without registry mapping"
    run := fun context =>
      if !context.registryConfig.hasConfig then []
      else
        listFlatMap
          (fun dep =>
            let scope := dep.scope.getD ""
            if !mapHas context.registryConfig.scopeRegistries scope
                && !defaultIsPrivate context.registryConfig then
              [dc002Finding dep scope]
            else [])
          (getScopedDependencies context) }

/-- The finding DC-003 pushes for one dependency. -/
def dc003Finding (dep : PackageDependency) (scope : String)
    (entry : LockfileEntry) : Finding :=
  { ruleId := "DC-003", severity := Severity.critical
    title := "Scoped package resolved from public registry"
    description := "Package \"" ++ dep.name
      ++ "\" has a private registry configured for scope \"" ++ scope
      ++ "\", but the lockfile shows it resolved from the public npm registry."
    packageName := some dep.name
    recommendation := "Delete the lockfile and node_modules, then run a fresh install to resolve from the correct registry."
    evidence := some ("Resolved URL: " ++ entry.resolved.getD "") }

/-- DC-003: lockfile resolves a scoped package from the public registry while
a scope mapping is configured. -/
def lockfilePublicResolution : Rule :=
  { id := "DC-003", severity := Severity.critical
    title := "Scoped package resolved from public registry"
    run := fun context =>
      match context.lockfile with
      | none => []
      | some lock =>
        listFlatMap
          (fun dep =>
            let scope := dep.scope.getD ""
            if !mapHas context.registryConfig.scopeRegistries scope then []
            else
              match mapGet lock.packages dep.name with
              | none => []
              | some entry =>
                if jsTruthyStr entry.resolved && isPublicRegistry entry.resolved then
                  [dc003Finding dep scope entry]
                else [])
          (getScopedDependencies context) }

/-- The single project-level finding of DC-004. -/
def dc004Finding : Finding :=
  { ruleId := "DC-004", severity := Severity.high
    title := "No lockfile found"
    description := "No package-lock.json, yarn.lock, or pnpm-lock.yaml found. Package resolution is non-deterministic."
    packageName := none
    recommendation := "Run npm install (or yarn/pnpm install) and commit the lockfile to version control."
    evidence := none }

/-- DC-004: no lockfile found. -/
def missingLockfile : Rule :=
  { id := "DC-004", severity := Severity.high
    title := "No lockfile found"
    run := fun context =>
      match context.lockfile with
      | some _ => []
      | none => [dc004Finding] }

/-- DC-005: lockfile entry without an integrity hash. -/
def noIntegrityHash : Rule :=
  { id := "DC-005", severity := Severity.medium
    title := "Missing integrity hash in lockfile"
    run := fun context =>
      match context.lockfile with
      | none => []
      | some lock =>
        listFlatMap
          (fun dep =>
            match mapGet lock.packages dep.name with
            | some entry =>
              if !jsTruthyStr entry.integrity then
                [{ ruleId := "DC-005", severity := Severity.medium
                   title := "Missing integrity hash in lockfile"
                   description := "Package \"" ++ dep.name
                     ++ "\" has no integrity hash in the lockfile. Package contents cannot be verified."
                   packageName := some dep.name
                   recommendation := "Regenerate the lockfile with a recent version of npm/yarn/pnpm that includes integrity hashes."
                   evidence := none }]
              else []
            | none => [])
          context.dependencies }

/-- DC-006: install scripts present in the project or in scoped
dependencies. -/
def installScriptsRisk : Rule :=
  { id := "DC-006", severity := Severity.medium
    title := "Install scripts detected"
    run := fun context =>
      let projectFindings :=
        if context.packageJson.hasPreinstall || context.packageJson.hasPostinstall
            || context.packageJson.hasInstall then
          [{ ruleId := "DC-006", severity := Severity.medium
             title := "Install scripts detected"
             description := "This project" ++ squoteStr
               ++ "s package.json contains install lifecycle scripts that execute during npm install."
             packageName := context.packageJson.name
             recommendation := "Review install scripts for unexpected behavior. Consider using --ignore-scripts for CI."
             evidence := some (String.intercalate (", ")
               ((if context.packageJson.hasPreinstall then ["preinstall"] else [])
                 ++ (if context.packageJson.hasInstall then ["install"] else [])
                 ++ (if context.packageJson.hasPostinstall then ["postinstall"] else []))) }]
        else []
      projectFindings ++ listFlatMap
        (fun dep =>
          if dep.hasInstallScripts && dep.isScoped then
            [{ ruleId := "DC-006", severity := Severity.high
               title := "Scoped dependency has install scripts"
               description := "Scoped package \"" ++ dep.name
                 ++ "\" has install lifecycle scripts that execute during npm install. Combined with dependency confusion, this is a code execution vector."
               packageName := some dep.name
               recommendation := "Verify \"" ++ dep.name
                 ++ "\" is from your private registry. Consider using --ignore-scripts or npm audit signatures."
               evidence := some ("hasInstallScripts: true in lockfile") }]
          else [])
        context.dependencies }

/-- The finding DC-007 pushes for one dependency. -/
def dc007Finding (dep : PackageDependency) : Finding :=
  { ruleId := "DC-007", severity := Severity.medium
    title := "Unpinned version on scoped package"
    description := "Scoped package \"" ++ dep.name ++ "\" uses version range \""
      ++ dep.version ++ "\". A higher version from the public registry could be pulled."
    packageName := some dep.name
    recommendation := "Pin to an exact version: \"" ++ dep.name ++ "\": \""
      ++ stripCaretTilde dep.version ++ "\""
    evidence := some ("Version: " ++ dep.version) }

/-- DC-007: scoped package with an unpinned version range. -/
def unpinnedScopedVersion : Rule :=
  { id := "DC-007", severity := Severity.medium
    title := "Unpinned version on scoped package"
    run := fun context =>
      listFlatMap
        (fun dep => if !isVersionPinned dep.version then [dc007Finding dep] else [])
        (getScopedDependencies context) }

/-- Insertion into a JS `Set` modelled as a duplicate-free insertion-ordered
list. -/
def setAdd (l : List String) (x : String) : List String :=
  if l.contains x then l else l ++ [x]

/-- DC-009: packages of one scope resolving from several registry hosts. -/
def mixedScopeRegistries : Rule :=
  { id := "DC-009", severity := Severity.high
    title := "Mixed registries for same scope"
    run := fun context =>
      match context.lockfile with
      | none => []
      | some lock =>
        let maps := context.dependencies.foldl
          (fun (maps : List (String × List String) × List (String × List String)) dep =>
            if !dep.isScoped || !jsTruthyStr dep.scope then maps
            else
              let scope := dep.scope.getD ""
              match mapGet lock.packages dep.name with
              | none => maps
              | some entry =>
                if !jsTruthyStr entry.resolved then maps
                else
                  match extractRegistryHost (entry.resolved.getD "") with
                  | none => maps
                  | some host =>
                    if host = "" then maps
                    else
                      let regMap := if mapHas maps.1 scope then maps.1
                        else mapSet maps.1 scope []
                      let pkgMap := if mapHas maps.2 scope then maps.2
                        else mapSet maps.2 scope []
                      (mapSet regMap scope (setAdd ((mapGet regMap scope).getD []) host),
                       mapSet pkgMap scope (((mapGet pkgMap scope).getD []) ++ [dep.name])))
          ([], [])
        listFlatMap
          (fun p =>
            if decide (1 < p.2.length) then
              [{ ruleId := "DC-009", severity := Severity.high
                 title := "Mixed registries for same scope"
                 description := "Packages in scope \"" ++ p.1 ++ "\" resolve from "
                   ++ toString p.2.length
                   ++ " different registries. This could indicate a partial compromise."
                 packageName := none
                 recommendation := "Ensure all packages in scope \"" ++ p.1
                   ++ "\" resolve from the same private registry."
                 evidence := some ("Registries: " ++ String.intercalate (", ") p.2
                   ++ "; Packages: "
                   ++ String.intercalate (", ") ((mapGet maps.2 p.1).getD [])) }]
            else [])
          maps.1 }

/-- DC-010: private registry configured (informational). -/
def privateRegistryConfigured : Rule :=
  { id := "DC-010", severity := Severity.info
    title := "Private registry configured"
    run := fun context =>
      let defaults :=
        if defaultIsPrivate context.registryConfig then
          [{ ruleId := "DC-010", severity := Severity.info
             title := "Private registry configured"
             description := "Default registry is set to a private registry: "
               ++ context.registryConfig.defaultRegistry.getD ""
             packageName := none
             recommendation := "This is a good practice. Ensure scope-specific mappings are also configured for completeness."
             evidence := some ("Registry: " ++ context.registryConfig.defaultRegistry.getD "") }]
        else []
      defaults ++ listFlatMap
        (fun p =>
          if !isPublicRegistry (some p.2) then
            [{ ruleId := "DC-010", severity := Severity.info
               title := "Private registry configured for " ++ p.1
               description := "Scope \"" ++ p.1 ++ "\" is mapped to private registry: " ++ p.2
               packageName := none
               recommendation := "Good configuration. Verify it matches your organization"
                 ++ squoteStr ++ "s private registry."
               evidence := some ("Scope: " ++ p.1 ++ ", Registry: " ++ p.2) }]
          else [])
        context.registryConfig.scopeRegistries }

/-- `ALL_RULES`, in the source's order (DC-008 is the online checker, not a
static rule). -/
def ALL_RULES : List Rule :=
  [noRegistryConfig, scopeWithoutRegistry, lockfilePublicResolution,
   missingLockfile, noIntegrityHash, installScriptsRisk,
   unpinnedScopedVersion, mixedScopeRegistries, privateRegistryConfigured]

/-- The concatenated findings of the static rule loop of `analyze`. -/
def rulesFindings (context : ProjectContext) : List Finding :=
  listFlatMap (fun r => r.run context) ALL_RULES

/-! ### Online registry checker (`src/analyzer/registry-checker.ts`)

The network is modelled by an oracle `net : String → Option Nat` giving the
HTTP status of the HEAD probe for a package name, `none` when the request
throws (timeout, network failure). -/

inductive RegistryCheckResult
  | pkgExists
  | notFound
  | err
  deriving DecidableEq, Repr

/-- `packageExistsOnPublicNpm`: 200 ↦ exists, 404 ↦ not-found, any other
status or a thrown request ↦ error. -/
def packageExistsOnPublicNpm (net : String → Option Nat) (packageName : String) :
    RegistryCheckResult :=
  match net packageName with
  | some status =>
    if status = 200 then RegistryCheckResult.pkgExists
    else if status = 404 then RegistryCheckResult.notFound
    else RegistryCheckResult.err
  | none => RegistryCheckResult.err

/-- The DC-008 finding for a package that exists on public npm. -/
def dc8ExistsFinding (dep : PackageDependency) : Finding :=
  { ruleId := "DC-008", severity := Severity.high
    title := "Scoped package exists on public npm"
    description := "Package \"" ++ dep.name
      ++ "\" exists on the public npm registry. This is a direct dependency confusion attack vector if you expect this to be a private package."
    packageName := some dep.name
    recommendation := "Verify that the public \"" ++ dep.name
      ++ "\" package is the intended one, not a malicious squatter. Configure scope-specific registry in .npmrc."
    evidence := some ("Public npm URL: https://registry.npmjs.org/" ++ dep.name) }

/-- The DC-008 finding for an inconclusive probe. -/
def dc8ErrorFinding (dep : PackageDependency) : Finding :=
  { ruleId := "DC-008", severity := Severity.low
    title := "Unable to check public registry"
    description := "Could not verify whether \"" ++ dep.name
      ++ "\" exists on the public npm registry. Network error or timeout occurred."
    packageName := some dep.name
    recommendation := "Re-run with network access to complete the dependency confusion check."
    evidence := some ("Network check failed") }

/-- The findings one settled probe contributes (the `allSettled` rejection
branch is unreachable: every probe resolves, errors are caught inside). -/
def dc8Emit (net : String → Option Nat) (dep : PackageDependency) : List Finding :=
  match packageExistsOnPublicNpm net dep.name with
  | RegistryCheckResult.pkgExists => [dc8ExistsFinding dep]
  | RegistryCheckResult.notFound => []
  | RegistryCheckResult.err => [dc8ErrorFinding dep]

/-- The sequential-batch loop of `checkPublicRegistry`: slices of size `c`,
all probes of a batch settled before the next batch starts. A zero
concurrency makes the source loop forever; the model returns `[]` there
(the function is only called with the default 5). -/
def checkBatches (net : String → Option Nat) (c : Nat) :
    List PackageDependency → List Finding
  | [] => []
  | d :: rest =>
    if h : c = 0 then []
    else
      ((d :: rest).take c).flatMap (dc8Emit net)
        ++ checkBatches net c ((d :: rest).drop c)
termination_by l => l.length
decreasing_by
  have hc : 0 < c := Nat.pos_of_ne_zero h
  simp [List.length_drop]
  omega

/-- `checkPublicRegistry` (the source's `concurrency` parameter defaults
to 5; callers in `analyze` use that default). -/
def checkPublicRegistry (net : String → Option Nat)
    (dependencies : List PackageDependency) (concurrency : Nat) : List Finding :=
  checkBatches net concurrency (dependencies.filter (fun dep => dep.isScoped))

/-! ### Analyzer (`src/analyzer/analyzer.ts`) -/

/-- The options record passed to `analyze`. -/
structure AnalyzeOptions where
  offline : Bool
  severityThreshold : Severity
  scopes : Option (List String)
  ignorePackages : Option (List String)
  deriving DecidableEq, Repr

/-- `extractScope` of `analyzer.ts`. -/
def firstSlashIdx : List Char → Option Nat
  | [] => none
  | c :: r => if c = '/' then some 0 else (firstSlashIdx r).map (fun i => i + 1)

/-- `extractScope`: the `@…` prefix before the first `/` of a scoped name. -/
def extractScope (packageName : String) : Option String :=
  if strStarts packageName ("@") then
    match firstSlashIdx packageName.toList with
    | some i => if 0 < i then some (String.mk (packageName.toList.take i)) else none
    | none => none
  else none

/-- The scope filter of `analyze` (applied only when a non-empty scope list
is given); a finding with no package name — by JS truthiness also one with
an empty name — is always kept. -/
def scopeFilterStep (opts : AnalyzeOptions) (l : List Finding) : List Finding :=
  match opts.scopes with
  | some sc =>
    if decide (0 < sc.length) then
      l.filter (fun f =>
        match f.packageName with
        | none => true
        | some p =>
          if p = "" then true
          else
            match extractScope p with
            | some s => decide (s ∈ sc)
            | none => true)
    else l
  | none => l

/-- The ignore filter of `analyze` (applied only when a non-empty ignore
list is given). -/
def ignoreFilterStep (opts : AnalyzeOptions) (l : List Finding) : List Finding :=
  match opts.ignorePackages with
  | some ig =>
    if decide (0 < ig.length) then
      l.filter (fun f =>
        match f.packageName with
        | none => true
        | some p => if p = "" then true else decide (p ∉ ig))
    else l
  | none => l

/-- The severity-threshold filter of `analyze`. -/
def severityFilterStep (t : Severity) (l : List Finding) : List Finding :=
  l.filter (fun f => decide (ordSeverity f.severity ≤ ordSeverity t))

/-- Stable insertion used to model the ECMAScript stable
`findings.sort((a, b) => ord a - ord b)`: an element passes every element
with a strictly smaller key and stops before the first element with an equal
or larger key, so earlier elements of equal key stay in front. -/
def insertBySev (f : Finding) : List Finding → List Finding
  | [] => [f]
  | g :: gs =>
    if ordSeverity g.severity < ordSeverity f.severity then g :: insertBySev f gs
    else f :: g :: gs

/-- Stable sort by severity ordinal (insertion sort; any stable sort with
this comparator computes the same list, so this models the ECMAScript
`Array.prototype.sort`, specified stable). -/
def sortFindings (l : List Finding) : List Finding :=
  l.foldr insertBySev []

/-- The filter pipeline of `analyze`, in source order: scope filter, ignore
filter, severity threshold. -/
def filteredFindings (opts : AnalyzeOptions) (l : List Finding) : List Finding :=
  severityFilterStep opts.severityThreshold
    (ignoreFilterStep opts (scopeFilterStep opts l))

/-- Filters then stable sort. -/
def assembleFindings (opts : AnalyzeOptions) (l : List Finding) : List Finding :=
  sortFindings (filteredFindings opts l)

/-- The merged rule + online findings list before filtering (`analyze` lines
194–206). -/
def mergedFindings (context : ProjectContext) (opts : AnalyzeOptions)
    (net : String → Option Nat) : List Finding :=
  rulesFindings context
    ++ (if opts.offline then [] else checkPublicRegistry net context.dependencies 5)

/-- `buildSummary`. -/
def buildSummary (findings : List Finding) : ScanSummary :=
  { total := findings.length
    critical := (findings.filter (fun f => decide (f.severity = Severity.critical))).length
    high := (findings.filter (fun f => decide (f.severity = Severity.high))).length
    medium := (findings.filter (fun f => decide (f.severity = Severity.medium))).length
    low := (findings.filter (fun f => decide (f.severity = Severity.low))).length
    info := (findings.filter (fun f => decide (f.severity = Severity.info))).length }

/-- `buildContext`. -/
def buildContext (context : ProjectContext) : ScanContext :=
  { packagesScanned := context.dependencies.length
    scopedPackages := (context.dependencies.filter (fun d => d.isScoped)).length
    registriesConfigured := context.registryConfig.scopeRegistries.length
      + (if jsTruthyStr context.registryConfig.defaultRegistry then 1 else 0)
    lockfileDetected := context.lockfile.isSome }

/-- `analyze`: run the rules, optionally the online checker, filter, sort,
summarise. -/
def analyze (context : ProjectContext) (opts : AnalyzeOptions)
    (net : String → Option Nat) : ScanResult :=
  let findings := assembleFindings opts (mergedFindings context opts net)
  { findings := findings
    summary := buildSummary findings
    context := buildContext context }

/-! ### Concrete fixtures used to evaluate the definitions -/

/-- A manifest with no dependency and no lifecycle script. -/
def emptyPackageJson : PackageJsonData :=
  { name := none, version := none, isPrivate := false, dependencies := [],
    devDependencies := [], hasPreinstall := false, hasPostinstall := false,
    hasInstall := false }

/-- A project with a config file but no dependency and no lockfile: only
DC-004 fires. -/
def ctxNoLock : ProjectContext :=
  { rootDir := "", packageJson := emptyPackageJson, dependencies := []
    registryConfig := { defaultRegistry := none, scopeRegistries := [], hasConfig := true }
    lockfile := none }

/-- A network oracle on which every probe fails. -/
def netNone : String → Option Nat := fun _ => none

/-- Offline options with the loosest threshold and no filter. -/
def optsBase : AnalyzeOptions :=
  { offline := true, severityThreshold := Severity.info, scopes := none,
    ignorePackages := none }

/-- Offline options with a scope allow-list. -/
def optsScoped : AnalyzeOptions :=
  { offline := true, severityThreshold := Severity.info, scopes := some ["@keep"],
    ignorePackages := none }

/-- One scoped dependency of scope `@acme`. -/
def depAcme : PackageDependency :=
  { name := "@acme/lib", version := "^1.0.0", scope := some "@acme",
    isScoped := true, isDev := false, resolvedUrl := none, integrity := none,
    hasInstallScripts := false }

/-- Config present, no default registry, no scope mapping: DC-002 fires for
`@acme/lib`. -/
def ctxC2 : ProjectContext :=
  { rootDir := "", packageJson := emptyPackageJson, dependencies := [depAcme]
    registryConfig := { defaultRegistry := none, scopeRegistries := [], hasConfig := true }
    lockfile := none }

/-- A lockfile entry resolved from the public registry. -/
def entryPub : LockfileEntry :=
  { name := "@a/b", version := "1.0.0"
    resolved := some "https://registry.npmjs.org/@a/b/-/b-1.0.0.tgz"
    integrity := some "sha512-abc", hasInstallScripts := none }

/-- One scoped dependency of scope `@a`. -/
def depAB : PackageDependency :=
  { name := "@a/b", version := "^1.0.0", scope := some "@a", isScoped := true,
    isDev := false, resolvedUrl := none, integrity := none,
    hasInstallScripts := false }

/-- The scope `@a` is mapped to the PUBLIC npm registry and the lockfile
resolves `@a/b` from the public registry. -/
def ctxC3 : ProjectContext :=
  { rootDir := "", packageJson := emptyPackageJson, dependencies := [depAB]
    registryConfig := { defaultRegistry := none
                        scopeRegistries := [("@a", "https://registry.npmjs.org/")]
                        hasConfig := true }
    lockfile := some { type := PackageManager.npm, packages := [("@a/b", entryPub)] } }

/-- A scoped dependency declared with the `=`-prefixed exact version. -/
def depPinnedEq : PackageDependency :=
  { name := "@acme/lib", version := "=1.2.3", scope := some "@acme",
    isScoped := true, isDev := false, resolvedUrl := none, integrity := none,
    hasInstallScripts := false }

/-- Context whose single scoped dependency is declared as `=1.2.3`. -/
def ctxC4 : ProjectContext :=
  { rootDir := "", packageJson := emptyPackageJson, dependencies := [depPinnedEq]
    registryConfig := { defaultRegistry := none, scopeRegistries := [], hasConfig := true }
    lockfile := none }

/-- A yarn.lock with two blocks for the same package name `a`, versions
1.0.0 then 2.0.0. -/
def yarnDupContent : String :=
  "a@^1.0.0:\n  version \"1.0.0\"\n\na@^2.0.0:\n  version \"2.0.0\"\n"

/-- One npm lockfile package value with only a version. -/
def npmPkgW : NpmLockPkg :=
  { version := some "1.0.0", resolved := none, integrity := none,
    hasInstallScripts := none }

/-- A parsed npm lockfile JSON with one `packages` entry. -/
def rawNpmW : NpmLockRaw :=
  { packages := [("node_modules/a", npmPkgW)], dependencies := [] }

/-- A lockfile entry for package `a`, version 1.0.0. -/
def entryA : LockfileEntry :=
  { name := "a", version := "1.0.0", resolved := none, integrity := none,
    hasInstallScripts := none }

/-- A pnpm parser state inside the packages section whose table already
binds `a`. -/
def stW : PnpmSt :=
  { inSection := true, curName := none, curVersion := none, curIntegrity := none,
    packages := [("a", entryA)] }

/-- An `.npmrc` defining a default registry and a mapping for `@a`. -/
def npmrcW : String :=
  "@a:registry=https://npmrc.example.com/\nregistry=https://default-npmrc.example.com/\n"

/-- A `.yarnrc.yml` defining a default registry and a mapping for `@a`. -/
def yarnrcW : String :=
  "npmRegistryServer: \"https://default-yarnrc.example.com\"\nnpmScopes:\n  \"@a\":\n    npmRegistryServer: \"https://yarnrc.example.com\"\n"

/-- A scoped dependency probed by the online checker. -/
def depScopedX : PackageDependency :=
  { name := "@a/x", version := "1.0.0", scope := some "@a", isScoped := true,
    isDev := false, resolvedUrl := none, integrity := none,
    hasInstallScripts := false }

/-- An unscoped dependency, never probed. -/
def depPlainY : PackageDependency :=
  { name := "y", version := "1.0.0", scope := none, isScoped := false,
    isDev := false, resolvedUrl := none, integrity := none,
    hasInstallScripts := false }

/-- A network oracle: `@a/x` exists (HTTP 200), everything else times out. -/
def netW : String → Option Nat := fun n => if n = "@a/x" then some 200 else none

/-! ### Basic lemmas about the list and map helpers -/

theorem listFlatMap_nil (f : α → List β) : listFlatMap f [] = [] := rfl

theorem listFlatMap_cons (f : α → List β) (a : α) (l : List α) :
    listFlatMap f (a :: l) = f a ++ listFlatMap f l := rfl

theorem mem_listFlatMap {f : α → List β} {b : β} :
    ∀ {l : List α}, b ∈ listFlatMap f l ↔ ∃ a, a ∈ l ∧ b ∈ f a := by
  intro l
  induction l with
  | nil => simp [listFlatMap]
  | cons a r ih =>
    simp only [listFlatMap, List.mem_append, ih, List.mem_cons]
    constructor
    · rintro (hb | ⟨a1, ha1, hb⟩)
      · exact ⟨a, Or.inl rfl, hb⟩
      · exact ⟨a1, Or.inr ha1, hb⟩
    · rintro ⟨a1, (rfl | ha1), hb⟩
      · exact Or.inl hb
      · exact Or.inr ⟨a1, ha1, hb⟩

theorem mapGet_set_self (m : List (String × α)) (k : String) (v : α) :
    mapGet (mapSet m k v) k = some v := by
  induction m with
  | nil => simp [mapSet, mapGet]
  | cons p r ih =>
    by_cases h : p.1 = k
    · simp [mapSet, mapGet, h]
    · simp [mapSet, mapGet, h, ih]

theorem mapGet_set_ne (m : List (String × α)) {k1 k : String} (v : α)
    (h : k1 ≠ k) : mapGet (mapSet m k1 v) k = mapGet m k := by
  induction m with
  | nil => simp [mapSet, mapGet, h]
  | cons p r ih =>
    by_cases hp : p.1 = k1
    · simp only [mapSet, if_pos hp, mapGet]
      rw [if_neg (hp ▸ h), if_neg (hp ▸ h)]
    · simp only [mapSet, if_neg hp, mapGet]
      by_cases hk : p.1 = k
      · rw [if_pos hk, if_pos hk]
      · rw [if_neg hk, if_neg hk, ih]

theorem mapGet_guardedSet_preserve {m : List (String × α)} {k : String} {v : α}
    (k1 : String) (w : α) (h : mapGet m k = some v) :
    mapGet (guardedSet m k1 w) k = some v := by
  unfold guardedSet
  by_cases hhas : mapHas m k1
  · rw [if_pos hhas]; exact h
  · rw [if_neg hhas]
    by_cases hk : k1 = k
    · subst hk
      exact absurd (by simp [mapHas, h]) hhas
    · rw [mapGet_set_ne m w hk]; exact h

theorem foldl_mapSet_get (l : List (String × α)) (m0 : List (String × α)) (k : String) :
    mapGet (l.foldl (fun m p => mapSet m p.1 p.2) m0) k
      = match lastLookup l k with
        | some v => some v
        | none => mapGet m0 k := by
  induction l generalizing m0 with
  | nil => simp [lastLookup]
  | cons p r ih =>
    simp only [List.foldl_cons, lastLookup]
    rw [ih]
    cases hr : lastLookup r k with
    | some w => simp
    | none =>
      by_cases hp : p.1 = k
      · subst hp; simp [mapGet_set_self]
      · simp [hp, mapGet_set_ne m0 p.2 hp]

theorem mapSet_ne_nil (m : List (String × α)) (k : String) (v : α) :
    mapSet m k v ≠ [] := by
  cases m with
  | nil => simp [mapSet]
  | cons p r =>
    unfold mapSet
    by_cases h : p.1 = k <;> simp [h]

theorem foldl_mapSet_ne_nil (l : List (String × α)) (m0 : List (String × α))
    (h : m0 ≠ []) : l.foldl (fun m p => mapSet m p.1 p.2) m0 ≠ [] := by
  induction l generalizing m0 with
  | nil => exact h
  | cons p r ih => exact ih _ (mapSet_ne_nil m0 p.1 p.2)

/-- Key uniqueness of an association list (invariant of lists built with
`mapSet`). -/
def mapKeysNodup (m : List (String × α)) : Prop :=
  (m.map Prod.fst).Nodup

theorem mapGet_eq_none_of_not_mem_keys {m : List (String × α)} {k : String}
    (h : k ∉ m.map Prod.fst) : mapGet m k = none := by
  induction m with
  | nil => rfl
  | cons p r ih =>
    simp only [List.map_cons, List.mem_cons] at h
    push_neg at h
    simp only [mapGet]
    rw [if_neg (fun he => h.1 he.symm), ih h.2]

theorem lastLookup_eq_none_of_not_mem_keys {m : List (String × α)} {k : String}
    (h : k ∉ m.map Prod.fst) : lastLookup m k = none := by
  induction m with
  | nil => rfl
  | cons p r ih =>
    simp only [List.map_cons, List.mem_cons] at h
    push_neg at h
    simp only [lastLookup]
    rw [ih h.2, if_neg (fun he => h.1 he.symm)]

theorem lastLookup_of_keysNodup {m : List (String × α)} (hm : mapKeysNodup m)
    (k : String) : lastLookup m k = mapGet m k := by
  induction m with
  | nil => rfl
  | cons p r ih =>
    simp only [mapKeysNodup, List.map_cons, List.nodup_cons] at hm
    rcases hm with ⟨hp, hr⟩
    simp only [lastLookup, mapGet]
    by_cases hk : p.1 = k
    · subst hk
      rw [lastLookup_eq_none_of_not_mem_keys hp]
      simp
    · rw [ih hr, if_neg hk, if_neg hk]
      cases mapGet r k <;> simp

theorem mem_keys_mapSet {m : List (String × α)} {k x : String} (v : α) :
    x ∈ (mapSet m k v).map Prod.fst ↔ x ∈ m.map Prod.fst ∨ x = k := by
  induction m with
  | nil => simp [mapSet]
  | cons p r ih =>
    obtain ⟨k1, v1⟩ := p
    by_cases h : k1 = k
    · subst h
      simp only [mapSet, eq_self_iff_true, if_true, List.map_cons, List.mem_cons]
      tauto
    · simp only [mapSet, if_neg h, List.map_cons, List.mem_cons, ih]
      tauto

theorem mapKeysNodup_set {m : List (String × α)} (hm : mapKeysNodup m)
    (k : String) (v : α) : mapKeysNodup (mapSet m k v) := by
  induction m with
  | nil => simp [mapSet, mapKeysNodup]
  | cons p r ih =>
    obtain ⟨k1, v1⟩ := p
    simp only [mapKeysNodup, List.map_cons, List.nodup_cons] at hm
    rcases hm with ⟨hp, hr⟩
    by_cases h : k1 = k
    · simp only [mapSet, if_pos h, mapKeysNodup, List.map_cons, List.nodup_cons]
      exact ⟨hp, hr⟩
    · simp only [mapSet, if_neg h, mapKeysNodup, List.map_cons, List.nodup_cons]
      refine ⟨?_, ih hr⟩
      intro hmem
      rcases (mem_keys_mapSet v).1 hmem with hx | hx
      · exact hp hx
      · exact h hx

/-! ### Sorting lemmas -/

/-- The ordering `analyze` sorts by: non-decreasing severity ordinal. -/
def sevLe (a b : Finding) : Prop :=
  ordSeverity a.severity ≤ ordSeverity b.severity

theorem ordSeverity_injective {a b : Severity}
    (h : ordSeverity a = ordSeverity b) : a = b := by
  cases a <;> cases b <;> first
  | rfl
  | exact absurd h (by simp [ordSeverity])

theorem mem_insertBySev {x f : Finding} :
    ∀ {l : List Finding}, x ∈ insertBySev f l ↔ x = f ∨ x ∈ l := by
  intro l
  induction l with
  | nil => simp [insertBySev]
  | cons g gs ih =>
    by_cases h : ordSeverity g.severity < ordSeverity f.severity
    · simp only [insertBySev, if_pos h, List.mem_cons, ih]
      tauto
    · simp only [insertBySev, if_neg h, List.mem_cons]

theorem pairwise_insertBySev {f : Finding} {l : List Finding}
    (hl : l.Pairwise sevLe) : (insertBySev f l).Pairwise sevLe := by
  induction l with
  | nil => simp [insertBySev, List.pairwise_cons]
  | cons g gs ih =>
    rcases List.pairwise_cons.1 hl with ⟨hg, hgs⟩
    by_cases h : ordSeverity g.severity < ordSeverity f.severity
    · simp only [insertBySev, if_pos h]
      refine List.pairwise_cons.2 ⟨?_, ih hgs⟩
      intro x hx
      rcases mem_insertBySev.1 hx with rfl | hx
      · exact Nat.le_of_lt h
      · exact hg x hx
    · simp only [insertBySev, if_neg h]
      refine List.pairwise_cons.2 ⟨?_, hl⟩
      intro x hx
      rcases List.mem_cons.1 hx with rfl | hx
      · exact Nat.le_of_not_lt h
      · exact Nat.le_trans (Nat.le_of_not_lt h) (hg x hx)

theorem sortFindings_pairwise (l : List Finding) :
    (sortFindings l).Pairwise sevLe := by
  induction l with
  | nil => simp [sortFindings]
  | cons f r ih =>
    have : sortFindings (f :: r) = insertBySev f (sortFindings r) := rfl
    rw [this]
    exact pairwise_insertBySev ih

theorem mem_sortFindings {x : Finding} :
    ∀ {l : List Finding}, x ∈ sortFindings l ↔ x ∈ l := by
  intro l
  induction l with
  | nil => simp [sortFindings]
  | cons f r ih =>
    have h1 : sortFindings (f :: r) = insertBySev f (sortFindings r) := rfl
    rw [h1, List.mem_cons, mem_insertBySev, ih]

theorem filter_insertBySev (s : Severity) (f : Finding) (l : List Finding) :
    (insertBySev f l).filter (fun x => decide (x.severity = s))
      = ((f :: l).filter (fun x => decide (x.severity = s))) := by
  induction l with
  | nil => simp [insertBySev]
  | cons g gs ih =>
    by_cases h : ordSeverity g.severity < ordSeverity f.severity
    · have hne : ¬(g.severity = s ∧ f.severity = s) := by
        rintro ⟨hg, hf⟩
        rw [hg, hf] at h
        exact Nat.lt_irrefl _ h
      simp only [insertBySev, if_pos h]
      by_cases hg : g.severity = s
      · have hf : ¬f.severity = s := fun hf => hne ⟨hg, hf⟩
        simp [List.filter_cons, hg, hf] at ih ⊢
        exact ih
      · simp [List.filter_cons, hg] at ih ⊢
        exact ih
    · simp only [insertBySev, if_neg h]

theorem filter_sortFindings (s : Severity) (l : List Finding) :
    (sortFindings l).filter (fun x => decide (x.severity = s))
      = l.filter (fun x => decide (x.severity = s)) := by
  induction l with
  | nil => simp [sortFindings]
  | cons f r ih =>
    have h1 : sortFindings (f :: r) = insertBySev f (sortFindings r) := rfl
    rw [h1, filter_insertBySev]
    by_cases hf : f.severity = s
    · simp [List.filter_cons, hf, ih]
    · simp [List.filter_cons, hf, ih]

theorem length_eq_severity_sum (l : List Finding) :
    l.length
      = (l.filter (fun f => decide (f.severity = Severity.critical))).length
        + (l.filter (fun f => decide (f.severity = Severity.high))).length
        + (l.filter (fun f => decide (f.severity = Severity.medium))).length
        + (l.filter (fun f => decide (f.severity = Severity.low))).length
        + (l.filter (fun f => decide (f.severity = Severity.info))).length := by
  induction l with
  | nil => simp
  | cons f r ih =>
    cases hf : f.severity <;>
      simp [List.filter_cons, hf, List.length_cons] <;> omega

/-! ### Miscellaneous support lemmas -/

theorem nodupMapInj {l : List α} {f : α → β} (h : (l.map f).Nodup) :
    ∀ {a b : α}, a ∈ l → b ∈ l → f a = f b → a = b := by
  induction l with
  | nil => intro a b ha; cases ha
  | cons x r ih =>
    simp only [List.map_cons, List.nodup_cons] at h
    rcases h with ⟨hx, hr⟩
    intro a b ha hb hab
    rcases List.mem_cons.1 ha with rfl | ha2 <;> rcases List.mem_cons.1 hb with rfl | hb2
    · rfl
    · exact absurd (List.mem_map.2 ⟨b, hb2, hab.symm⟩) hx
    · exact absurd (List.mem_map.2 ⟨a, ha2, hab⟩) hx
    · exact ih hr ha2 hb2 hab

theorem foldl_mapSet_get_nil (l : List (String × α)) (k : String) :
    mapGet (l.foldl (fun m p => mapSet m p.1 p.2) []) k = lastLookup l k := by
  rw [foldl_mapSet_get]
  cases lastLookup l k <;> rfl

theorem foldl_mapSet_nil_ne_nil (l : List (String × α)) (h : l ≠ []) :
    l.foldl (fun m p => mapSet m p.1 p.2) [] ≠ [] := by
  cases l with
  | nil => exact absurd rfl h
  | cons p r =>
    simp only [List.foldl_cons]
    exact foldl_mapSet_ne_nil r _ (mapSet_ne_nil [] p.1 p.2)

theorem npmrcStep_keysNodup {st : Option String × List (String × String)}
    (h : mapKeysNodup st.2) (line : String) : mapKeysNodup (npmrcStep st line).2 := by
  unfold npmrcStep
  dsimp only
  split
  · exact h
  · split
    · exact h
    · split
      · exact mapKeysNodup_set h _ _
      · exact h

theorem npmrcFold_keysNodup (lines : List String)
    (st : Option String × List (String × String)) (h : mapKeysNodup st.2) :
    mapKeysNodup ((lines.foldl npmrcStep st)).2 := by
  induction lines generalizing st with
  | nil => exact h
  | cons ln rest ih => exact ih _ (npmrcStep_keysNodup h ln)

theorem parseNpmrcContent_keysNodup (c : String) :
    mapKeysNodup (parseNpmrcContent c).scopeRegistries := by
  unfold parseNpmrcContent
  exact npmrcFold_keysNodup _ _ (by simp [mapKeysNodup])

theorem parseNpmrc_keysNodup (npmrc : Option String) :
    mapKeysNodup (parseNpmrc npmrc).scopeRegistries := by
  cases npmrc with
  | none => simp [parseNpmrc, emptyRegistryConfig, mapKeysNodup]
  | some c => exact parseNpmrcContent_keysNodup c

theorem pnpmFlush_preserve {st : PnpmSt} {k : String} {v : LockfileEntry}
    (h : mapGet st.packages k = some v) : mapGet (pnpmFlush st) k = some v := by
  unfold pnpmFlush
  split
  · exact mapGet_guardedSet_preserve _ _ h
  · exact h

theorem pnpmStep_preserve {st : PnpmSt} {k : String} {v : LockfileEntry}
    (line : String) (h : mapGet st.packages k = some v) :
    mapGet (pnpmStep st line).packages k = some v := by
  unfold pnpmStep
  dsimp only
  split
  · exact h
  · split
    · exact pnpmFlush_preserve h
    · split
      · exact h
      · split
        · exact pnpmFlush_preserve h
        · split
          · split
            · exact h
            · exact h
          · exact h

theorem pnpmFold_preserve (lines : List String) {st : PnpmSt} {k : String}
    {v : LockfileEntry} (h : mapGet st.packages k = some v) :
    mapGet ((lines.foldl pnpmStep st)).packages k = some v := by
  induction lines generalizing st with
  | nil => exact h
  | cons ln rest ih => exact ih (pnpmStep_preserve ln h)

/-! ### Online checker lemmas -/

theorem checkBatches_eq (net : String → Option Nat) {c : Nat} (hc : 0 < c) :
    ∀ l : List PackageDependency,
      checkBatches net c l = l.flatMap (dc8Emit net) := by
  intro l
  generalize hn : l.length = n
  induction n using Nat.strong_induction_on generalizing l with
  | _ n ih =>
    cases l with
    | nil => simp [checkBatches]
    | cons d rest =>
      rw [checkBatches]
      rw [dif_neg (Nat.pos_iff_ne_zero.1 hc)]
      have hlt : ((d :: rest).drop c).length < n := by
        subst hn
        simp only [List.length_drop, List.length_cons]
        omega
      rw [ih _ hlt _ rfl]
      rw [← List.flatMap_append, List.take_append_drop]

theorem dc8Emit_pkgName {net : String → Option Nat} {dep : PackageDependency} :
    ∀ f ∈ dc8Emit net dep, f.packageName = some dep.name := by
  intro f hf
  unfold dc8Emit at hf
  split at hf
  · simp only [List.mem_singleton] at hf
    subst hf; rfl
  · cases hf
  · simp only [List.mem_singleton] at hf
    subst hf; rfl

theorem flatMap_filter_eq_nil {net : String → Option Nat}
    {l : List PackageDependency} {nm : String} (h : ∀ e ∈ l, e.name ≠ nm) :
    (l.flatMap (dc8Emit net)).filter (fun f => decide (f.packageName = some nm)) = [] := by
  rw [List.filter_eq_nil_iff]
  intro f hf
  rcases List.mem_flatMap.1 hf with ⟨e, he, hfe⟩
  rw [dc8Emit_pkgName f hfe]
  simp [h e he]

theorem flatMap_filter_eq_emit (net : String → Option Nat)
    {l : List PackageDependency} {d : PackageDependency} (hd : d ∈ l)
    (hnd : (l.map (fun x => x.name)).Nodup) :
    (l.flatMap (dc8Emit net)).filter (fun f => decide (f.packageName = some d.name))
      = dc8Emit net d := by
  induction l with
  | nil => cases hd
  | cons e rest ih =>
    simp only [List.map_cons, List.nodup_cons] at hnd
    rcases hnd with ⟨he, hr⟩
    rcases List.mem_cons.1 hd with rfl | hd2
    · rw [List.flatMap_cons, List.filter_append]
      have h1 : (dc8Emit net d).filter (fun f => decide (f.packageName = some d.name))
          = dc8Emit net d := by
        rw [List.filter_eq_self]
        intro f hf
        rw [dc8Emit_pkgName f hf]
        simp
      have h2 : (rest.flatMap (dc8Emit net)).filter
          (fun f => decide (f.packageName = some d.name)) = [] := by
        refine flatMap_filter_eq_nil ?_
        intro e2 he2 hn2
        exact he (hn2 ▸ List.mem_map.2 ⟨e2, he2, rfl⟩)
      rw [h1, h2, List.append_nil]
    · have hne : e.name ≠ d.name := fun hn => he (hn ▸ List.mem_map.2 ⟨d, hd2, rfl⟩)
      rw [List.flatMap_cons, List.filter_append]
      have h0 : (dc8Emit net e).filter
          (fun f => decide (f.packageName = some d.name)) = [] := by
        rw [List.filter_eq_nil_iff]
        intro f hf
        rw [dc8Emit_pkgName f hf]
        simp [hne]
      rw [h0, List.nil_append]
      exact ih hd2 hr

/-! ### Rule unfolding equations -/

theorem scopeWithoutRegistry_run (context : ProjectContext) :
    scopeWithoutRegistry.run context
      = if !context.registryConfig.hasConfig then []
        else
          listFlatMap
            (fun dep =>
              if !mapHas context.registryConfig.scopeRegistries (dep.scope.getD "")
                  && !defaultIsPrivate context.registryConfig then
                [dc002Finding dep (dep.scope.getD "")]
              else [])
            (getScopedDependencies context) := rfl

theorem lockfilePublicResolution_run (context : ProjectContext) :
    lockfilePublicResolution.run context
      = match context.lockfile with
        | none => []
        | some lock =>
          listFlatMap
            (fun dep =>
              if !mapHas context.registryConfig.scopeRegistries (dep.scope.getD "") then []
              else
                match mapGet lock.packages dep.name with
                | none => []
                | some entry =>
                  if jsTruthyStr entry.resolved && isPublicRegistry entry.resolved then
                    [dc003Finding dep (dep.scope.getD "") entry]
                  else [])
            (getScopedDependencies context) := rfl

/-! ### Claim theorems -/

/-- C2. The rule "scoped package without registry mapping" (DC-002) returns
an empty finding list whenever no config file exists; when config exists it
emits no finding at all if the default registry is private; otherwise it
emits exactly one critical finding per scoped dependency whose scope has no
entry in the scope-registry table, attributed to that dependency. -/
theorem dc002_suppression_and_findings (context : ProjectContext) :
    (context.registryConfig.hasConfig = false → scopeWithoutRegistry.run context = [])
    ∧ (defaultIsPrivate context.registryConfig = true →
        scopeWithoutRegistry.run context = [])
    ∧ (context.registryConfig.hasConfig = true →
        defaultIsPrivate context.registryConfig = false →
        ((scopeWithoutRegistry.run context).map (fun f => f.packageName)
            = ((getScopedDependencies context).filter
                (fun d => !mapHas context.registryConfig.scopeRegistries (d.scope.getD ""))).map
                (fun d => some d.name))
          ∧ ∀ f ∈ scopeWithoutRegistry.run context,
              f.severity = Severity.critical ∧ f.ruleId = "DC-002") := by
  have key : ∀ (l : List PackageDependency) (q : PackageDependency → Bool),
      (listFlatMap
        (fun dep => if q dep then [dc002Finding dep (dep.scope.getD "")] else [])
        l).map (fun f => f.packageName)
        = (l.filter q).map (fun d => some d.name) := by
    intro l q
    induction l with
    | nil => rfl
    | cons d r ih =>
      rw [listFlatMap_cons, List.map_append, List.filter_cons]
      by_cases hq : q d
      · rw [if_pos hq, if_pos hq]
        simp only [List.map_cons]
        rw [ih]
        rfl
      · rw [if_neg hq, if_neg hq]
        simpa using ih
  refine ⟨?_, ?_, ?_⟩
  · intro hcfg
    rw [scopeWithoutRegistry_run, hcfg]
    rfl
  · intro hdp
    rw [scopeWithoutRegistry_run]
    split
    · rfl
    · have h1 := key (getScopedDependencies context)
        (fun dep => !mapHas context.registryConfig.scopeRegistries (dep.scope.getD "")
          && !defaultIsPrivate context.registryConfig)
      have h2 : (getScopedDependencies context).filter
          (fun dep => !mapHas context.registryConfig.scopeRegistries (dep.scope.getD "")
            && !defaultIsPrivate context.registryConfig) = [] := by
        rw [List.filter_eq_nil_iff]
        intro d _
        simp [hdp]
      rw [h2] at h1
      simp only [List.map_nil] at h1
      exact List.map_eq_nil_iff.1 h1
  · intro hcfg hdp
    constructor
    · rw [scopeWithoutRegistry_run, hcfg]
      simp only [Bool.not_true, Bool.false_eq_true, if_false]
      rw [key (getScopedDependencies context)
        (fun dep => !mapHas context.registryConfig.scopeRegistries (dep.scope.getD "")
          && !defaultIsPrivate context.registryConfig)]
      congr 1
      refine List.filter_congr ?_
      intro d _
      simp [hdp]
    · intro f hf
      rw [scopeWithoutRegistry_run, hcfg] at hf
      simp only [Bool.not_true, Bool.false_eq_true, if_false] at hf
      rcases mem_listFlatMap.1 hf with ⟨dep, _, hfd⟩
      split at hfd
      · simp only [List.mem_singleton] at hfd
        subst hfd
        exact ⟨rfl, rfl⟩
      · cases hfd

/-- C3 counterexample. A scope mapped to the PUBLIC npm registry still makes
DC-003 emit a finding when the lockfile resolves the package from the public
registry, so DC-003 does not restrict itself to scopes with a *private*
mapping. -/
theorem dc003_public_mapping_counterexample :
    ((lockfilePublicResolution.run ctxC3).map (fun f => f.packageName) = [some "@a/b"])
    ∧ isPublicRegistry (mapGet ctxC3.registryConfig.scopeRegistries "@a") = true := by
  exact ⟨rfl, rfl⟩

/-- C3 (amended). DC-003 evaluates only those scoped dependencies whose
scope has a registry mapping configured (private or not): every finding it
emits is attributed to a scoped dependency whose scope has a mapping, and a
scoped dependency whose scope has no mapping never receives a DC-003
finding. -/
theorem dc003_scope_mapping_precondition (context : ProjectContext) :
    (∀ f ∈ lockfilePublicResolution.run context,
      ∃ d, d ∈ context.dependencies ∧ d.isScoped = true
        ∧ mapHas context.registryConfig.scopeRegistries (d.scope.getD "") = true
        ∧ f.packageName = some d.name)
    ∧ (∀ d ∈ context.dependencies, d.isScoped = true →
        mapHas context.registryConfig.scopeRegistries (d.scope.getD "") = false →
        (context.dependencies.map (fun x => x.name)).Nodup →
        ∀ f ∈ lockfilePublicResolution.run context, f.packageName ≠ some d.name) := by
  have hpart1 : ∀ f ∈ lockfilePublicResolution.run context,
      ∃ d, d ∈ context.dependencies ∧ d.isScoped = true
        ∧ mapHas context.registryConfig.scopeRegistries (d.scope.getD "") = true
        ∧ f.packageName = some d.name := by
    intro f hf
    rw [lockfilePublicResolution_run] at hf
    cases hlock : context.lockfile with
    | none => rw [hlock] at hf; cases hf
    | some lock =>
      rw [hlock] at hf
      rcases mem_listFlatMap.1 hf with ⟨dep, hdep, hfd⟩
      rcases List.mem_filter.1 hdep with ⟨hdeps, hsc⟩
      by_cases hh : mapHas context.registryConfig.scopeRegistries (dep.scope.getD "")
      · refine ⟨dep, hdeps, hsc, hh, ?_⟩
        rw [if_neg (by simp [hh])] at hfd
        cases hget : mapGet lock.packages dep.name with
        | none => rw [hget] at hfd; cases hfd
        | some entry =>
          rw [hget] at hfd
          dsimp only at hfd
          by_cases hcond :
              (jsTruthyStr entry.resolved && isPublicRegistry entry.resolved) = true
          · rw [if_pos hcond] at hfd
            rcases List.mem_singleton.1 hfd with rfl
            rfl
          · rw [if_neg hcond] at hfd
            cases hfd
      · rw [if_pos (by simp [hh])] at hfd
        cases hfd
  refine ⟨hpart1, ?_⟩
  intro d _ _ hno hnd f hf hpn
  rcases hpart1 f hf with ⟨e, he, _, hhase, hpe⟩
  have hname : e.name = d.name := by
    rw [hpe] at hpn
    exact Option.some.inj hpn
  have : e = d := nodupMapInj hnd he (by assumption) hname
  rw [this] at hhase
  rw [hhase] at hno
  cases hno

/-- C4. The version-pinning predicate rejects `=1.2.3` even though the
source comment documents `=1.2.3` as an exact version, so DC-007 emits a
(medium) finding for a scoped dependency declared as `=1.2.3`. -/
theorem isVersionPinned_rejects_eq_prefix :
    isVersionPinned ("=1.2.3") = false
    ∧ isVersionPinned ("1.2.3") = true
    ∧ (unpinnedScopedVersion.run ctxC4).map (fun f => f.packageName)
        = [some "@acme/lib"]
    ∧ (unpinnedScopedVersion.run ctxC4).map (fun f => f.severity) = [Severity.medium]
    ∧ (unpinnedScopedVersion.run ctxC4).map (fun f => f.ruleId) = ["DC-007"] := by
  exact ⟨rfl, rfl, rfl, rfl, rfl⟩

/-- C1 counterexample. A yarn.lock visiting the name `a` twice (first with
version 1.0.0, then 2.0.0) yields a table holding the SECOND occurrence's
version, so first-occurrence-wins fails for the classic-text dialect. -/
theorem yarn_duplicate_last_wins_counterexample :
    ((yarnEntries yarnDupContent).map (fun p => (p.1, p.2.version))
        = [("a", "1.0.0"), ("a", "2.0.0")])
    ∧ (mapGet (parseYarnLockfile yarnDupContent).packages "a").map (fun e => e.version)
        = some "2.0.0" := ⟨rfl, rfl⟩

/-- C1 (amended). Duplicate-name policy of the three lockfile parsers: the
npm JSON dialect and the classic-text (yarn) dialect keep the LAST
occurrence of a name (their tables realise `lastLookup` over the visited
entry sequence), while the YAML (pnpm) dialect keeps the FIRST occurrence:
once its table binds a name, no later line of the input — nor the final
flush — changes that binding. -/
theorem lockfile_duplicate_name_policy :
    (∀ (raw : NpmLockRaw) (k : String), npmPkgEntries raw ≠ [] →
      mapGet (parseNpmLockfile raw).packages k = lastLookup (npmPkgEntries raw) k)
    ∧ (∀ (raw : NpmLockRaw) (k : String), npmPkgEntries raw = [] →
      mapGet (parseNpmLockfile raw).packages k = lastLookup (npmDepEntries raw) k)
    ∧ (∀ (content k : String),
      mapGet (parseYarnLockfile content).packages k = lastLookup (yarnEntries content) k)
    ∧ (∀ (st : PnpmSt) (lines : List String) (k : String) (v : LockfileEntry),
      mapGet st.packages k = some v →
        mapGet ((lines.foldl pnpmStep st)).packages k = some v
        ∧ mapGet (pnpmFlush (lines.foldl pnpmStep st)) k = some v) := by
  refine ⟨?_, ?_, ?_, ?_⟩
  · intro raw k hne
    have hm := foldl_mapSet_nil_ne_nil (npmPkgEntries raw) hne
    unfold parseNpmLockfile
    dsimp only
    rw [if_neg (by simpa [List.length_eq_zero] using hm)]
    exact foldl_mapSet_get_nil _ k
  · intro raw k he
    unfold parseNpmLockfile
    dsimp only
    rw [he]
    simp only [List.foldl_nil, List.length_nil, if_pos rfl]
    exact foldl_mapSet_get_nil _ k
  · intro content k
    have h1 : (parseYarnLockfile content).packages
        = (yarnEntries content).foldl (fun m p => mapSet m p.1 p.2) [] := rfl
    rw [h1]
    exact foldl_mapSet_get_nil _ k
  · intro st lines k v h
    exact ⟨pnpmFold_preserve lines h,
           pnpmFlush_preserve (pnpmFold_preserve lines h)⟩

/-- C8. The merged registry config prefers `.npmrc`: a scope defined in both
dialects gets the `.npmrc` value; the merged default registry is `.npmrc`'s
value when defined, else `.yarnrc.yml`'s; and `hasConfig` holds exactly when
at least one of the two files exists. -/
theorem registry_config_merge (npmrc yarnrc : Option String) :
    (∀ (s v w : String),
      mapGet (parseNpmrc npmrc).scopeRegistries s = some v →
      mapGet (parseYarnrc yarnrc).scopeRegistries s = some w →
      mapGet (parseRegistryConfig npmrc yarnrc).scopeRegistries s = some v)
    ∧ (∀ d, (parseNpmrc npmrc).defaultRegistry = some d →
        (parseRegistryConfig npmrc yarnrc).defaultRegistry = some d)
    ∧ ((parseNpmrc npmrc).defaultRegistry = none →
        (parseRegistryConfig npmrc yarnrc).defaultRegistry
          = (parseYarnrc yarnrc).defaultRegistry)
    ∧ ((parseRegistryConfig npmrc yarnrc).hasConfig
        = (npmrc.isSome || yarnrc.isSome)) := by
  refine ⟨?_, ?_, ?_, ?_⟩
  · intro s v w hA _
    have hnodup := parseNpmrc_keysNodup npmrc
    unfold parseRegistryConfig
    dsimp only
    rw [foldl_mapSet_get, lastLookup_of_keysNodup hnodup, hA]
  · intro d hd
    unfold parseRegistryConfig
    dsimp only
    rw [hd]
  · intro hd
    unfold parseRegistryConfig
    dsimp only
    rw [hd]
  · cases npmrc <;> cases yarnrc <;> rfl

/-- C9. Classification of the online checker: for each scoped dependency the
probe outcome 200 contributes exactly the one high-severity DC-008 finding,
404 contributes nothing, any other status or a thrown request contributes
exactly the one low-severity DC-008 finding; unscoped dependencies get no
finding; and in offline mode `analyze` is independent of the network. -/
theorem online_checker_classification (net : String → Option Nat)
    (deps : List PackageDependency) (c : Nat) (hc : 0 < c)
    (hnd : (deps.map (fun d => d.name)).Nodup) :
    (∀ d ∈ deps, d.isScoped = true →
      ((net d.name = some 200 →
          (checkPublicRegistry net deps c).filter
            (fun f => decide (f.packageName = some d.name)) = [dc8ExistsFinding d])
        ∧ (net d.name = some 404 →
          (checkPublicRegistry net deps c).filter
            (fun f => decide (f.packageName = some d.name)) = [])
        ∧ (∀ st, net d.name = some st → st ≠ 200 → st ≠ 404 →
          (checkPublicRegistry net deps c).filter
            (fun f => decide (f.packageName = some d.name)) = [dc8ErrorFinding d])
        ∧ (net d.name = none →
          (checkPublicRegistry net deps c).filter
            (fun f => decide (f.packageName = some d.name)) = [dc8ErrorFinding d])))
    ∧ (∀ d ∈ deps, d.isScoped = false →
        (checkPublicRegistry net deps c).filter
          (fun f => decide (f.packageName = some d.name)) = [])
    ∧ (∀ d, (dc8ExistsFinding d).severity = Severity.high
        ∧ (dc8ExistsFinding d).ruleId = "DC-008"
        ∧ (dc8ErrorFinding d).severity = Severity.low
        ∧ (dc8ErrorFinding d).ruleId = "DC-008")
    ∧ (∀ (context : ProjectContext) (opts : AnalyzeOptions)
          (net2 : String → Option Nat), opts.offline = true →
        analyze context opts net = analyze context opts net2) := by
  have hrw : checkPublicRegistry net deps c
      = (deps.filter (fun dep => dep.isScoped)).flatMap (dc8Emit net) := by
    unfold checkPublicRegistry
    exact checkBatches_eq net hc _
  have hndf : ((deps.filter (fun dep => dep.isScoped)).map (fun d => d.name)).Nodup := by
    refine List.Nodup.sublist ?_ hnd
    exact List.Sublist.map _ (List.filter_sublist _)
  refine ⟨?_, ?_, ?_, ?_⟩
  · intro d hd hsc
    have hdf : d ∈ deps.filter (fun dep => dep.isScoped) :=
      List.mem_filter.2 ⟨hd, hsc⟩
    have hfilter := flatMap_filter_eq_emit net hdf hndf
    refine ⟨?_, ?_, ?_, ?_⟩
    · intro h200
      rw [hrw, hfilter]
      simp [dc8Emit, packageExistsOnPublicNpm, h200]
    · intro h404
      rw [hrw, hfilter]
      simp [dc8Emit, packageExistsOnPublicNpm, h404]
    · intro st hst h200 h404
      rw [hrw, hfilter]
      simp [dc8Emit, packageExistsOnPublicNpm, hst, h200, h404]
    · intro hnone
      rw [hrw, hfilter]
      simp [dc8Emit, packageExistsOnPublicNpm, hnone]
  · intro d hd hsc
    rw [hrw]
    refine flatMap_filter_eq_nil ?_
    intro e he hn
    rcases List.mem_filter.1 he with ⟨hedeps, hesc⟩
    have : e = d := nodupMapInj hnd hedeps hd hn
    rw [this, hsc] at hesc
    cases hesc
  · intro d
    exact ⟨rfl, rfl, rfl, rfl⟩
  · intro context opts net2 hoff
    simp only [analyze, mergedFindings, hoff, if_true]

/-- C5. Every finding returned by `analyze` is at least as severe as the
requested threshold: its severity ordinal is at most the threshold's. -/
theorem severity_threshold_filter (context : ProjectContext)
    (opts : AnalyzeOptions) (net : String → Option Nat) :
    ∀ f ∈ (analyze context opts net).findings,
      ordSeverity f.severity ≤ ordSeverity opts.severityThreshold := by
  intro f hf
  have hfs : (analyze context opts net).findings
      = sortFindings (filteredFindings opts (mergedFindings context opts net)) := rfl
  rw [hfs] at hf
  have h1 := mem_sortFindings.1 hf
  rcases List.mem_filter.1 h1 with ⟨_, hp⟩
  exact of_decide_eq_true hp

/-- C6. The findings list of `analyze` is sorted by non-decreasing severity
ordinal, and for each severity class the sorted list lists exactly the
findings of that class of the pre-sort (post-filter) list in their original
order — the sort is stable. -/
theorem findings_sorted_and_stable (context : ProjectContext)
    (opts : AnalyzeOptions) (net : String → Option Nat) :
    ((analyze context opts net).findings.Pairwise sevLe)
    ∧ ∀ s : Severity,
        (analyze context opts net).findings.filter (fun f => decide (f.severity = s))
          = (filteredFindings opts (mergedFindings context opts net)).filter
              (fun f => decide (f.severity = s)) := by
  have hfs : (analyze context opts net).findings
      = sortFindings (filteredFindings opts (mergedFindings context opts net)) := rfl
  constructor
  · rw [hfs]
    exact sortFindings_pairwise _
  · intro s
    rw [hfs]
    exact filter_sortFindings s _

/-- C7. With a non-empty scope allow-list: every returned finding attached
to a scoped package has its scope in the list; a project-level finding (no
package name) passes both the scope and the ignore filter and is dropped
only by the severity threshold; and no returned finding's package name is
in the ignore set. -/
theorem scope_and_ignore_filters (context : ProjectContext)
    (opts : AnalyzeOptions) (net : String → Option Nat) (sc : List String)
    (hsc : opts.scopes = some sc) (hne : sc ≠ []) :
    (∀ f ∈ (analyze context opts net).findings, ∀ p, f.packageName = some p →
      ∀ s, extractScope p = some s → s ∈ sc)
    ∧ (∀ f ∈ mergedFindings context opts net, f.packageName = none →
        ordSeverity f.severity ≤ ordSeverity opts.severityThreshold →
        f ∈ (analyze context opts net).findings)
    ∧ (∀ f ∈ (analyze context opts net).findings, ∀ p, f.packageName = some p →
        p ≠ "" → ∀ ig, opts.ignorePackages = some ig → p ∉ ig) := by
  have hlen : 0 < sc.length := List.length_pos.2 hne
  have hfs : (analyze context opts net).findings
      = sortFindings (filteredFindings opts (mergedFindings context opts net)) := rfl
  have hscope : scopeFilterStep opts (mergedFindings context opts net)
      = (mergedFindings context opts net).filter (fun f =>
          match f.packageName with
          | none => true
          | some p =>
            if p = "" then true
            else
              match extractScope p with
              | some s => decide (s ∈ sc)
              | none => true) := by
    unfold scopeFilterStep
    rw [hsc]
    dsimp only
    rw [if_pos (decide_eq_true hlen)]
  refine ⟨?_, ?_, ?_⟩
  · intro f hf p hp s hs
    rw [hfs] at hf
    have h1 := mem_sortFindings.1 hf
    have h2 : f ∈ ignoreFilterStep opts
        (scopeFilterStep opts (mergedFindings context opts net)) :=
      (List.mem_filter.1 h1).1
    have h3 : f ∈ scopeFilterStep opts (mergedFindings context opts net) := by
      cases hig : opts.ignorePackages with
      | none =>
        unfold ignoreFilterStep at h2
        rw [hig] at h2
        exact h2
      | some ig =>
        unfold ignoreFilterStep at h2
        rw [hig] at h2
        dsimp only at h2
        by_cases higl : decide (0 < ig.length) = true
        · rw [if_pos higl] at h2
          exact (List.mem_filter.1 h2).1
        · rw [if_neg higl] at h2
          exact h2
    rw [hscope] at h3
    rcases List.mem_filter.1 h3 with ⟨_, hpred⟩
    simp only [hp] at hpred
    by_cases hpe : p = ""
    · subst hpe
      rw [show extractScope "" = none from rfl] at hs
      cases hs
    · rw [if_neg hpe] at hpred
      simp only [hs] at hpred
      exact of_decide_eq_true hpred
  · intro f hf hnone hsev
    have h1 : f ∈ scopeFilterStep opts (mergedFindings context opts net) := by
      rw [hscope]
      refine List.mem_filter.2 ⟨hf, ?_⟩
      simp [hnone]
    have h2 : f ∈ ignoreFilterStep opts
        (scopeFilterStep opts (mergedFindings context opts net)) := by
      cases hig : opts.ignorePackages with
      | none =>
        unfold ignoreFilterStep
        rw [hig]
        exact h1
      | some ig =>
        unfold ignoreFilterStep
        rw [hig]
        dsimp only
        by_cases higl : decide (0 < ig.length) = true
        · rw [if_pos higl]
          refine List.mem_filter.2 ⟨h1, ?_⟩
          simp [hnone]
        · rw [if_neg higl]
          exact h1
    have h3 : f ∈ filteredFindings opts (mergedFindings context opts net) :=
      List.mem_filter.2 ⟨h2, decide_eq_true hsev⟩
    rw [hfs]
    exact mem_sortFindings.2 h3
  · intro f hf p hp hpne ig hig
    rw [hfs] at hf
    have h1 := mem_sortFindings.1 hf
    have h2 : f ∈ ignoreFilterStep opts
        (scopeFilterStep opts (mergedFindings context opts net)) :=
      (List.mem_filter.1 h1).1
    unfold ignoreFilterStep at h2
    rw [hig] at h2
    dsimp only at h2
    by_cases higl : decide (0 < ig.length) = true
    · rw [if_pos higl] at h2
      rcases List.mem_filter.1 h2 with ⟨_, hpred⟩
      simp only [hp] at hpred
      rw [if_neg hpne] at hpred
      exact of_decide_eq_true hpred
    · have hig0 : ig.length = 0 := by
        rcases Nat.eq_zero_or_pos ig.length with h0 | h0
        · exact h0
        · exact absurd (decide_eq_true h0) higl
      rw [List.length_eq_zero.1 hig0]
      simp

/-- C10. The summary of every `analyze` result is consistent with its
findings list: `total` is the list's length and equals the sum of the five
per-severity counts, all over the same post-filter list. -/
theorem summary_consistency (context : ProjectContext)
    (opts : AnalyzeOptions) (net : String → Option Nat) :
    (analyze context opts net).summary.total
        = (analyze context opts net).findings.length
    ∧ (analyze context opts net).summary.total
        = (analyze context opts net).summary.critical
          + (analyze context opts net).summary.high
          + (analyze context opts net).summary.medium
          + (analyze context opts net).summary.low
          + (analyze context opts net).summary.info := by
  exact ⟨rfl, length_eq_severity_sum _⟩

/-! ### Witnesses -/

theorem lockfile_duplicate_name_policy_witness :
    (npmPkgEntries rawNpmW ≠ []
      ∧ mapGet (parseNpmLockfile rawNpmW).packages "a"
          = lastLookup (npmPkgEntries rawNpmW) "a")
    ∧ (mapGet stW.packages "a" = some entryA
      ∧ mapGet ((["  b@2.0.0:"].foldl pnpmStep stW)).packages "a" = some entryA
      ∧ mapGet (pnpmFlush (["  b@2.0.0:"].foldl pnpmStep stW)) "a" = some entryA) := by
  refine ⟨⟨by decide, lockfile_duplicate_name_policy.1 rawNpmW "a" (by decide)⟩,
    by decide, ?_, ?_⟩
  · exact (lockfile_duplicate_name_policy.2.2.2 stW (["  b@2.0.0:"]) "a" entryA
      (by decide)).1
  · exact (lockfile_duplicate_name_policy.2.2.2 stW (["  b@2.0.0:"]) "a" entryA
      (by decide)).2

theorem dc002_suppression_and_findings_witness :
    ctxC2.registryConfig.hasConfig = true
    ∧ defaultIsPrivate ctxC2.registryConfig = false
    ∧ (((scopeWithoutRegistry.run ctxC2).map (fun f => f.packageName)
          = ((getScopedDependencies ctxC2).filter
              (fun d => !mapHas ctxC2.registryConfig.scopeRegistries (d.scope.getD ""))).map
              (fun d => some d.name))
        ∧ ∀ f ∈ scopeWithoutRegistry.run ctxC2,
            f.severity = Severity.critical ∧ f.ruleId = "DC-002") := by
  exact ⟨rfl, rfl, (dc002_suppression_and_findings ctxC2).2.2 rfl rfl⟩

theorem dc003_scope_mapping_precondition_witness :
    (dc003Finding depAB "@a" entryPub ∈ lockfilePublicResolution.run ctxC3)
    ∧ ∃ d, d ∈ ctxC3.dependencies ∧ d.isScoped = true
        ∧ mapHas ctxC3.registryConfig.scopeRegistries (d.scope.getD "") = true
        ∧ (dc003Finding depAB "@a" entryPub).packageName = some d.name := by
  refine ⟨by decide, (dc003_scope_mapping_precondition ctxC3).1 _ (by decide)⟩

theorem severity_threshold_filter_witness :
    dc004Finding ∈ (analyze ctxNoLock optsBase netNone).findings
    ∧ ordSeverity dc004Finding.severity ≤ ordSeverity optsBase.severityThreshold := by
  exact ⟨by decide,
    severity_threshold_filter ctxNoLock optsBase netNone dc004Finding (by decide)⟩

theorem scope_and_ignore_filters_witness :
    optsScoped.scopes = some (["@keep"])
    ∧ ((["@keep"] : List String) ≠ [])
    ∧ ((∀ f ∈ (analyze ctxNoLock optsScoped netNone).findings, ∀ p,
          f.packageName = some p → ∀ s, extractScope p = some s → s ∈ (["@keep"] : List String))
      ∧ (∀ f ∈ mergedFindings ctxNoLock optsScoped netNone, f.packageName = none →
          ordSeverity f.severity ≤ ordSeverity optsScoped.severityThreshold →
          f ∈ (analyze ctxNoLock optsScoped netNone).findings)
      ∧ (∀ f ∈ (analyze ctxNoLock optsScoped netNone).findings, ∀ p,
          f.packageName = some p → p ≠ "" → ∀ ig,
          optsScoped.ignorePackages = some ig → p ∉ ig)) := by
  exact ⟨rfl, by decide,
    scope_and_ignore_filters ctxNoLock optsScoped netNone (["@keep"]) rfl (by decide)⟩

theorem registry_config_merge_witness :
    mapGet (parseNpmrc (some npmrcW)).scopeRegistries "@a"
        = some "https://npmrc.example.com/"
    ∧ mapGet (parseYarnrc (some yarnrcW)).scopeRegistries "@a"
        = some "https://yarnrc.example.com"
    ∧ mapGet (parseRegistryConfig (some npmrcW) (some yarnrcW)).scopeRegistries "@a"
        = some "https://npmrc.example.com/" := by
  have h1 : mapGet (parseNpmrc (some npmrcW)).scopeRegistries "@a"
      = some "https://npmrc.example.com/" := by decide
  have h2 : mapGet (parseYarnrc (some yarnrcW)).scopeRegistries "@a"
      = some "https://yarnrc.example.com" := by decide
  exact ⟨h1, h2, (registry_config_merge (some npmrcW) (some yarnrcW)).1 "@a" _ _ h1 h2⟩

theorem online_checker_classification_witness :
    (0 < 5)
    ∧ (([depScopedX, depPlainY].map (fun d => d.name)).Nodup)
    ∧ depScopedX ∈ ([depScopedX, depPlainY] : List PackageDependency)
    ∧ depScopedX.isScoped = true
    ∧ netW depScopedX.name = some 200
    ∧ (checkPublicRegistry netW ([depScopedX, depPlainY]) 5).filter
        (fun f => decide (f.packageName = some depScopedX.name))
        = [dc8ExistsFinding depScopedX] := by
  refine ⟨by decide, by decide, by decide, rfl, by decide, ?_⟩
  exact ((online_checker_classification netW ([depScopedX, depPlainY]) 5
    (by decide) (by decide)).1 depScopedX (by decide) rfl).1 (by decide)

end Depfence
